import Mathlib

/-!
# Layout generators and transition engine of the dashboard (`src/app.js`)

A shallow embedding of the layout generators (`generateTableLayout`,
`generateSphereLayout`, `generateHelixLayout`, `generateGridLayout`), of
`transform` and of `initThreeScene`, followed by the properties proved about them.

Numbers: JavaScript numbers are embedded in a linearly ordered field `α` with a floor
function (`ℚ` for evaluation, `ℝ` where `Math.acos`, `Math.sqrt`, `Math.sin`, `Math.cos`
are interpreted).  Entity counts and loop counters are natural numbers, as `people.length`
and the `for (let i = 0; i < count; i++)` counters are.

Rounding: the values of the table and grid layouts are small integers and halves, which
doubles represent exactly.  The arithmetic of `transform` and of `initThreeScene` works on
values of `Math.random()`, so each of its results is passed through a rounding `fl`, a
parameter of the model; `roundDouble` is the rounding of doubles over `ℚ`, and the identity
gives exact arithmetic.
-/

namespace Kasatria

/-! ## Data model -/

/-- The three coordinates of a `THREE.Vector3` (also used for the `x, y, z` of a
`THREE.Euler` rotation). -/
structure Vector3 (α : Type) where
  x : α
  y : α
  z : α
  deriving DecidableEq, Repr

/-- The part of a `THREE.Object3D` the program reads and writes: `position` and
`rotation`. -/
structure Object3D (α : Type) where
  position : Vector3 α
  rotation : Vector3 α
  deriving DecidableEq, Repr

/-- The value of `new THREE.Object3D()`: position and rotation are zero. -/
def Object3D.new {α : Type} [Zero α] : Object3D α :=
  { position := ⟨0, 0, 0⟩, rotation := ⟨0, 0, 0⟩ }

/-- The functions of the JavaScript `Math` object and of the three.js library used by the
layout generators, taken as parameters. `lookAt position vector` is the rotation an
object at `position` has after `target.lookAt(vector)`. -/
structure MathEnv (α : Type) where
  PI : α
  acos : α → α
  sqrt : α → α
  sin : α → α
  cos : α → α
  lookAt : Vector3 α → Vector3 α → Vector3 α

/-- Modelled from the spec: `Vector3.setFromSphericalCoords(radius, phi, theta)` belongs to
the three.js library, which is not part of the source; it sets the position computed from
spherical coordinates `(radius, phi, theta)`, that is
`(radius*sin(phi)*sin(theta), radius*cos(phi), radius*sin(phi)*cos(theta))`. -/
def setFromSphericalCoords {α : Type} [Mul α] (M : MathEnv α) (radius phi theta : α) :
    Vector3 α :=
  let sinPhiRadius := M.sin phi * radius
  { x := sinPhiRadius * M.sin theta
    y := M.cos phi * radius
    z := sinPhiRadius * M.cos theta }

/-- The method `Vector3.multiplyScalar(s)`. -/
def Vector3.multiplyScalar {α : Type} [Mul α] (v : Vector3 α) (s : α) : Vector3 α :=
  { x := v.x * s, y := v.y * s, z := v.z * s }

/-! ## Layout generators -/

section Generators

variable {α : Type} [LinearOrderedField α] [FloorRing α]

/-- The body of the loop of `generateTableLayout` for index `i`: the target pushed. -/
def tableTarget (count i : Nat) : Object3D α :=
  let cols : Nat := 20
  let rows : ℤ := ⌈(count : α) / (cols : α)⌉
  let col : Nat := i % cols
  let row : ℤ := ⌊(i : α) / (cols : α)⌋
  let target : Object3D α := Object3D.new
  let target := { target with position.x := ((col : α) - (cols : α) / 2) * 160 }
  let target := { target with position.y := ((rows : α) / 2 - (row : α)) * 200 }
  let target := { target with position.z := 0 }
  target

/-- The function `generateTableLayout(count)`, on the list `targets.table`. -/
def generateTableLayout (count : Nat) (table : List (Object3D α)) : List (Object3D α) :=
  (List.range count).foldl (fun table i => table ++ [tableTarget count i]) table

/-- The angle `phi` of `generateSphereLayout` for index `i`. -/
def spherePhi (M : MathEnv α) (count i : Nat) : α :=
  M.acos (-1 + (2 * (i : α)) / (count : α))

/-- The angle `theta` of `generateSphereLayout` for index `i`. -/
def sphereTheta (M : MathEnv α) (count i : Nat) : α :=
  M.sqrt ((count : α) * M.PI) * spherePhi M count i

/-- The body of the loop of `generateSphereLayout` for index `i`: the target pushed. -/
def sphereTarget (M : MathEnv α) (count i : Nat) : Object3D α :=
  let radius : α := 800
  let phi := spherePhi M count i
  let theta := sphereTheta M count i
  let target : Object3D α := Object3D.new
  let target := { target with position := setFromSphericalCoords M radius phi theta }
  let vector := target.position.multiplyScalar 2
  let target := { target with rotation := M.lookAt target.position vector }
  target

/-- The function `generateSphereLayout(count)`, on the list `targets.sphere`. -/
def generateSphereLayout (M : MathEnv α) (count : Nat) (sphere : List (Object3D α)) :
    List (Object3D α) :=
  (List.range count).foldl (fun sphere i => sphere ++ [sphereTarget M count i]) sphere

/-- The position `generateHelixLayout` computes from `t` and `helixOffset`
(`angle`, `y` and the three assignments to `target.position`). -/
def helixPosition (M : MathEnv α) (t helixOffset : α) : Vector3 α :=
  let radius : α := 600
  let height : α := 1500
  let turns : α := 5
  let angle := t * turns * 2 * M.PI + helixOffset
  let y := (t - 1 / 2) * height
  { x := radius * M.cos angle, y := y, z := radius * M.sin angle }

/-- The body of the loop of `generateHelixLayout` for index `i`: the target pushed. -/
def helixTarget (M : MathEnv α) (count i : Nat) : Object3D α :=
  let helixOffset : α := ((i % 2 : Nat) : α) * M.PI
  let t : α := (i : α) / (count : α)
  let target : Object3D α := Object3D.new
  { target with position := helixPosition M t helixOffset }

/-- The function `generateHelixLayout(count)`, on the list `targets.helix`. -/
def generateHelixLayout (M : MathEnv α) (count : Nat) (helix : List (Object3D α)) :
    List (Object3D α) :=
  (List.range count).foldl (fun helix i => helix ++ [helixTarget M count i]) helix

/-- The body of the loop of `generateGridLayout` for index `i`: the target pushed. -/
def gridTarget (i : Nat) : Object3D α :=
  let gridX : Nat := 5
  let gridY : Nat := 4
  let gridZ : Nat := 10
  let spacing : α := 200
  let x : Nat := i % gridX
  let y : ℤ := ⌊(i : α) / (gridX : α)⌋ % (gridY : ℤ)
  let z : ℤ := ⌊(i : α) / ((gridX * gridY : Nat) : α)⌋ % (gridZ : ℤ)
  let target : Object3D α := Object3D.new
  let target := { target with position.x := ((x : α) - (gridX : α) / 2) * spacing }
  let target := { target with position.y := ((y : α) - (gridY : α) / 2) * spacing }
  let target := { target with position.z := ((z : α) - (gridZ : α) / 2) * spacing }
  target

/-- The function `generateGridLayout(count)`, on the list `targets.grid`. -/
def generateGridLayout (count : Nat) (grid : List (Object3D α)) : List (Object3D α) :=
  (List.range count).foldl (fun grid i => grid ++ [gridTarget i]) grid

end Generators

/-! ## Scene state and transition engine -/

/-- The four layouts offered by the buttons of `createLayoutButtons`. -/
inductive LayoutName
  | table
  | sphere
  | helix
  | grid
  deriving DecidableEq, Repr

/-- The module variable `targets`: `{ table: [], sphere: [], helix: [], grid: [] }`. -/
structure Targets (α : Type) where
  table : List (Object3D α)
  sphere : List (Object3D α)
  helix : List (Object3D α)
  grid : List (Object3D α)

/-- The list `targets[name]`. -/
def Targets.get {α : Type} (t : Targets α) : LayoutName → List (Object3D α)
  | .table => t.table
  | .sphere => t.sphere
  | .helix => t.helix
  | .grid => t.grid

/-- The object a tween animates: `objects[i].position`, `objects[i].rotation`, or the
empty object `{}` of the tween that only carries the render callback. -/
inductive TweenObject
  | position (i : Nat)
  | rotation (i : Nat)
  | blank
  deriving DecidableEq, Repr

/-- The easing functions used: the library default and `TWEEN.Easing.Exponential.InOut`. -/
inductive Easing
  | linearNone
  | exponentialInOut
  deriving DecidableEq, Repr

/-- A started tween: the object it animates, the values it starts from (read from the
object when it is started; `none` when there is no property to animate), the values
passed to `.to(...)`, its duration, its start time, its easing, and whether
`.onUpdate(render)` was registered. -/
structure Tween (α : Type) where
  object : TweenObject
  valuesStart : Option (Vector3 α)
  valuesEnd : Option (Vector3 α)
  duration : α
  startTime : α
  easing : Easing
  onUpdate : Bool
  deriving DecidableEq, Repr

/-- The mutable state of the module: the list `objects`, the lists of `targets`, the set of
active tweens held by the tween library, the number of calls made to `Math.random()` so
far, and the number of calls made to `render()` so far. -/
structure State (α : Type) where
  objects : List (Object3D α)
  targets : Targets α
  tweens : List (Tween α)
  randomCalls : Nat
  renderCalls : Nat

/-- The state when the module is loaded: `objects = []`, all four target lists empty. -/
def State.initial {α : Type} : State α :=
  { objects := [], targets := ⟨[], [], [], []⟩, tweens := [], randomCalls := 0,
    renderCalls := 0 }

/-- The current value of the object a tween animates. -/
def TweenObject.read {α : Type} (s : State α) : TweenObject → Option (Vector3 α)
  | .position i => (s.objects[i]?).map (fun o => o.position)
  | .rotation i => (s.objects[i]?).map (fun o => o.rotation)
  | .blank => none

/-- Assignment of new values to the object a tween animates. -/
def TweenObject.write {α : Type} (s : State α) (v : Vector3 α) : TweenObject → State α
  | .position i =>
    match s.objects[i]? with
    | some o => { s with objects := s.objects.set i { o with position := v } }
    | none => s
  | .rotation i =>
    match s.objects[i]? with
    | some o => { s with objects := s.objects.set i { o with rotation := v } }
    | none => s
  | .blank => s

section Engine

variable {α : Type} [LinearOrderedField α]

/-- Modelled from the spec: the tween library is not part of the source.
`new TWEEN.Tween(object).to(values, duration).easing(e).onUpdate(f).start()` adds to the
active set one task that starts at the current time `now` from the current values of
`object` and ends at `values`. -/
def tweenStart (object : TweenObject) (values : Option (Vector3 α)) (duration : α)
    (easing : Easing) (onUpdate : Bool) (now : α) (s : State α) : State α :=
  { s with tweens := s.tweens ++
      [{ object := object
         valuesStart := if values.isSome then object.read s else none
         valuesEnd := values, duration := duration, startTime := now, easing := easing,
         onUpdate := onUpdate }] }

/-- Modelled from the spec: `TWEEN.removeAll()` of the tween library empties the active
set, which invalidates all tasks in flight. -/
def removeAll (s : State α) : State α :=
  { s with tweens := [] }

/-- The callback of `objects.forEach((object, i) => ...)` in `transform`, run over the
objects from index `i` on. `random n` is the value returned by call number `n` of
`Math.random()`; `fl` is the rounding of the exact result of an arithmetic operation to a
JavaScript number (a double), so that `Math.random() * duration + duration` is
`fl (fl (r * duration) + duration)`. -/
def transformForEach (fl : α → α) (random : Nat → α) (targetsArray : List (Object3D α))
    (duration now : α) : Nat → List (Object3D α) → State α → State α
  | _, [], s => s
  | i, _object :: rest, s =>
    match targetsArray[i]? with
    | none => transformForEach fl random targetsArray duration now (i + 1) rest s
    | some target =>
      let r := random s.randomCalls
      let s := { s with randomCalls := s.randomCalls + 1 }
      let s := tweenStart (.position i) (some target.position)
        (fl (fl (r * duration) + duration)) .exponentialInOut false now s
      let r := random s.randomCalls
      let s := { s with randomCalls := s.randomCalls + 1 }
      let s := tweenStart (.rotation i) (some target.rotation)
        (fl (fl (r * duration) + duration)) .exponentialInOut false now s
      transformForEach fl random targetsArray duration now (i + 1) rest s

/-- The tasks started by the callback of `transform` for the pairs of an object and its
target, from entity index `i` on, when `c` calls of `Math.random()` were made before: for
each pair one position task and one rotation task, with durations
`Math.random() * duration + duration`. -/
def startedTweens (fl : α → α) (random : Nat → α) (duration now : α) :
    Nat → Nat → List (Object3D α × Object3D α) → List (Tween α)
  | _, _, [] => []
  | c, i, (object, target) :: rest =>
    [ { object := .position i, valuesStart := some object.position,
        valuesEnd := some target.position,
        duration := fl (fl (random c * duration) + duration),
        startTime := now, easing := .exponentialInOut, onUpdate := false },
      { object := .rotation i, valuesStart := some object.rotation,
        valuesEnd := some target.rotation,
        duration := fl (fl (random (c + 1) * duration) + duration),
        startTime := now, easing := .exponentialInOut, onUpdate := false } ]
      ++ startedTweens fl random duration now (c + 2) (i + 1) rest

/-- The task of `transform` that carries the render callback:
`new TWEEN.Tween({}).to({}, duration * 2).onUpdate(render).start()`. -/
def renderTween (fl : α → α) (duration now : α) : Tween α :=
  { object := .blank, valuesStart := none, valuesEnd := none, duration := fl (duration * 2),
    startTime := now, easing := .linearNone, onUpdate := true }

/-- The object a task animates with the values it starts from and ends at. -/
def Tween.endpoints (tw : Tween α) : TweenObject × Option (Vector3 α) × Option (Vector3 α) :=
  (tw.object, tw.valuesStart, tw.valuesEnd)

/-- The function `transform(targetsArray, duration)`, called at time `now`. -/
def transform (fl : α → α) (random : Nat → α) (targetsArray : List (Object3D α))
    (duration now : α) (s : State α) : State α :=
  let s := removeAll s
  let s := transformForEach fl random targetsArray duration now 0 s.objects s
  tweenStart .blank none (fl (duration * 2)) .linearNone true now s

/-- The click handler installed by `createLayoutButtons` on the button of a layout:
`transform(layout.target, 2000)`. -/
def clickLayout (fl : α → α) (random : Nat → α) (name : LayoutName) (now : α)
    (s : State α) : State α :=
  transform fl random (s.targets.get name) 2000 now s

/-- The function `render()`, reduced to the count of its calls. -/
def render (s : State α) : State α :=
  { s with renderCalls := s.renderCalls + 1 }

/-- Modelled from the spec: the update of one task by the tween library (not part of the
source) at time `time`. The elapsed fraction of the duration, capped at `1`, is passed
through the easing curve (`exponentialInOut` for the entity tasks) to interpolate the
object between the start and end values; the update callback is invoked; the task is
discarded on completion, which is reported by `false`. The arithmetic of the library on
times is taken exact. -/
def Tween.update (exponentialInOut : α → α) (time : α) (tw : Tween α) (s : State α) :
    Bool × State α :=
  if time < tw.startTime then (true, s)
  else
    let elapsed := (time - tw.startTime) / tw.duration
    let elapsed := if tw.duration = 0 ∨ elapsed > 1 then 1 else elapsed
    let value :=
      match tw.easing with
      | .linearNone => elapsed
      | .exponentialInOut => exponentialInOut elapsed
    let s :=
      match tw.valuesStart, tw.valuesEnd with
      | some a, some b =>
        tw.object.write s
          { x := a.x + (b.x - a.x) * value
            y := a.y + (b.y - a.y) * value
            z := a.z + (b.z - a.z) * value }
      | _, _ => s
    let s := if tw.onUpdate then render s else s
    (decide (elapsed ≠ 1), s)

/-- Modelled from the spec: `TWEEN.update()` of the tween library at time `time`: every
active task is advanced in the order in which it was started, and the completed ones
leave the active set. -/
def TWEEN_update (exponentialInOut : α → α) (time : α) (s : State α) : State α :=
  let r := s.tweens.foldl
    (fun (acc : List (Tween α) × State α) tw =>
      let u := tw.update exponentialInOut time acc.2
      (if u.1 then acc.1 ++ [tw] else acc.1, u.2))
    ([], s)
  { r.2 with tweens := r.1 }

/-- The iterations of the frame loop at the times `frames`, one `TWEEN.update()` each. -/
def runFrames (exponentialInOut : α → α) (frames : List α) (s : State α) : State α :=
  frames.foldl (fun s time => TWEEN_update exponentialInOut time s) s

variable [FloorRing α]

/-- The function `initThreeScene(people)`, called at time `now`, without the camera, the
renderer, the controls and the page elements: one object per person at a random position,
the four layouts for `people.length`, then `transform(targets.table, 2000)`. The final
`animate()` starts the frame loop, whose iterations are the steps `TWEEN_update`. -/
def initThreeScene {ρ : Type} (M : MathEnv α) (fl : α → α) (random : Nat → α)
    (people : List ρ) (now : α) (s : State α) : State α :=
  let s := people.foldl
    (fun s _person =>
      let objectCSS : Object3D α := Object3D.new
      let objectCSS :=
        { objectCSS with position.x := fl (fl (random s.randomCalls * 4000) - 2000) }
      let objectCSS :=
        { objectCSS with position.y := fl (fl (random (s.randomCalls + 1) * 4000) - 2000) }
      let objectCSS :=
        { objectCSS with position.z := fl (fl (random (s.randomCalls + 2) * 4000) - 2000) }
      { s with objects := s.objects ++ [objectCSS], randomCalls := s.randomCalls + 3 })
    s
  let s := { s with targets.table := generateTableLayout people.length s.targets.table }
  let s := { s with targets.sphere := generateSphereLayout M people.length s.targets.sphere }
  let s := { s with targets.helix := generateHelixLayout M people.length s.targets.helix }
  let s := { s with targets.grid := generateGridLayout people.length s.targets.grid }
  transform fl random s.targets.table 2000 now s

/-- One operation on the module state: a scene initialisation, a call of `transform`, a
click on a layout button, or one iteration of the frame loop. -/
inductive Op (α : Type) (ρ : Type)
  | initThreeScene (people : List ρ) (now : α)
  | transform (targetsArray : List (Object3D α)) (duration now : α)
  | click (name : LayoutName) (now : α)
  | frame (time : α)

/-- The effect of one operation on the state. -/
def Op.apply {ρ : Type} (M : MathEnv α) (fl : α → α) (random : Nat → α)
    (exponentialInOut : α → α) (s : State α) : Op α ρ → State α
  | .initThreeScene people now => Kasatria.initThreeScene M fl random people now s
  | .transform targetsArray duration now =>
    Kasatria.transform fl random targetsArray duration now s
  | .click name now => clickLayout fl random name now s
  | .frame time => TWEEN_update exponentialInOut time s

/-- The state after a sequence of operations, starting from the state `s`. -/
def run {ρ : Type} (M : MathEnv α) (fl : α → α) (random : Nat → α)
    (exponentialInOut : α → α) (ops : List (Op α ρ)) (s : State α) : State α :=
  ops.foldl (Op.apply M fl random exponentialInOut) s

end Engine

/-! ## Rounding to double -/

/-- Rounding of a rational number to the nearest integer, a tie going to the even one. -/
def roundHalfEven (q : ℚ) : ℤ :=
  let f := ⌊q⌋
  if q - f < 1 / 2 then f
  else if 1 / 2 < q - f then f + 1
  else if f % 2 = 0 then f else f + 1

/-- The rounding of the exact result of an arithmetic operation to a JavaScript number:
to the nearest number with a significand of 53 bits, a tie going to the one with even
significand (IEEE 754 binary64, round to nearest even). The exponent range is taken
unbounded: no overflow to `Infinity` and no subnormal numbers, which the magnitudes of
this program (milliseconds, scene coordinates) do not reach. -/
def roundDouble (x : ℚ) : ℚ :=
  if x = 0 then 0
  else
    let ulp : ℚ := 2 ^ (Int.log 2 |x| - 52)
    (roundHalfEven (x / ulp) : ℚ) * ulp

/-! ## Example data -/

/-- A random source whose every value is `1/2`. -/
def exampleRandom : Nat → ℚ := fun _ => 1 / 2

/-- A random source whose every value is `1 - 2^-53`, the largest double below 1. -/
def maxRandom : Nat → ℚ := fun _ => 1 - 1 / 2 ^ 53

/-- An easing curve for evaluation: the identity. -/
def exampleEasing : ℚ → ℚ := fun k => k

/-- Three objects somewhere in the scene. -/
def exampleObjects : List (Object3D ℚ) :=
  [ { position := ⟨100, -200, 300⟩, rotation := ⟨0, 0, 0⟩ },
    { position := ⟨-50, 60, 70⟩, rotation := ⟨0, 0, 0⟩ },
    { position := ⟨1, 2, 3⟩, rotation := ⟨0, 0, 0⟩ } ]

/-- Two targets: one fewer than the objects of `exampleObjects`. -/
def exampleTargets : List (Object3D ℚ) :=
  [ { position := ⟨-1600, 100, 0⟩, rotation := ⟨0, 0, 0⟩ },
    { position := ⟨-1440, 100, 0⟩, rotation := ⟨0, 0, 0⟩ } ]

/-- A state in the middle of a session: three objects, a task of an earlier transition
still active, nine random numbers drawn. -/
def exampleState : State ℚ :=
  { objects := exampleObjects
    targets := ⟨exampleTargets, exampleTargets, exampleTargets, exampleTargets⟩
    tweens :=
      [ { object := .position 2, valuesStart := some ⟨0, 0, 0⟩, valuesEnd := some ⟨1, 2, 3⟩,
          duration := 2500, startTime := -4000, easing := .exponentialInOut,
          onUpdate := false } ]
    randomCalls := 9
    renderCalls := 0 }

/-! ## Properties of the layout generators -/

section GeneratorLemmas

variable {α : Type} [LinearOrderedField α]

/-- A loop that pushes `f i` for each `i` of `l` appends the list of the `f i`. -/
theorem foldl_push_eq_append {β : Type} (f : Nat → β) (l : List Nat) (init : List β) :
    l.foldl (fun acc i => acc ++ [f i]) init = init ++ l.map f := by
  induction l generalizing init with
  | nil => simp
  | cons a l ih => simp [ih]

theorem generateSphereLayout_eq (M : MathEnv α) (count : Nat) (sphere : List (Object3D α)) :
    generateSphereLayout M count sphere
      = sphere ++ (List.range count).map (sphereTarget M count) :=
  foldl_push_eq_append _ _ _

theorem generateHelixLayout_eq (M : MathEnv α) (count : Nat) (helix : List (Object3D α)) :
    generateHelixLayout M count helix
      = helix ++ (List.range count).map (helixTarget M count) :=
  foldl_push_eq_append _ _ _

/-- Entry `i` of the list of the `f j`, `j < count`. -/
theorem getElem?_map_range {β : Type} (f : Nat → β) (count i : Nat) (hi : i < count) :
    ((List.range count).map f)[i]? = some (f i) := by
  simp [List.getElem?_map, List.getElem?_range hi]

variable [FloorRing α]

theorem generateTableLayout_eq (count : Nat) (table : List (Object3D α)) :
    generateTableLayout count table = table ++ (List.range count).map (tableTarget count) :=
  foldl_push_eq_append _ _ _

theorem generateGridLayout_eq (count : Nat) (grid : List (Object3D α)) :
    generateGridLayout count grid = grid ++ (List.range count).map gridTarget :=
  foldl_push_eq_append _ _ _

/-- `Math.floor(i / n)` for natural numbers `i` and `n > 0` is the integer quotient. -/
theorem floor_natCast_div (i n : Nat) (hn : 0 < n) :
    ⌊(i : α) / (n : α)⌋ = ((i / n : Nat) : ℤ) := by
  have hn' : (0 : α) < (n : α) := by exact_mod_cast hn
  rw [Int.floor_eq_iff]
  constructor
  · rw [Int.cast_natCast, le_div_iff₀ hn']
    exact_mod_cast Nat.div_mul_le_self i n
  · rw [Int.cast_natCast, div_lt_iff₀ hn']
    have h : i < i / n * n + n := Nat.lt_div_mul_add hn
    have h' : (i : α) < ((i / n : Nat) : α) * (n : α) + (n : α) := by exact_mod_cast h
    linarith

/-- The target of the table layout in terms of integer quotient and remainder. -/
theorem tableTarget_eq (count i : Nat) :
    (tableTarget count i : Object3D α)
      = { position :=
            { x := (((i % 20 : Nat) : α) - 10) * 160
              y := (((⌈(count : α) / 20⌉ : ℤ) : α) / 2 - ((i / 20 : Nat) : α)) * 200
              z := 0 }
          rotation := ⟨0, 0, 0⟩ } := by
  have h := floor_natCast_div (α := α) i 20 (by norm_num)
  simp only [Nat.cast_ofNat] at h
  simp only [tableTarget, Object3D.new, Nat.cast_ofNat, h, Int.cast_natCast]
  norm_num

/-- The target of the grid layout in terms of integer quotients and remainders. -/
theorem gridTarget_eq (i : Nat) :
    (gridTarget i : Object3D α)
      = { position :=
            { x := (((i % 5 : Nat) : α) - 5 / 2) * 200
              y := (((i / 5 % 4 : Nat) : α) - 2) * 200
              z := (((i / 20 % 10 : Nat) : α) - 5) * 200 }
          rotation := ⟨0, 0, 0⟩ } := by
  have h5 := floor_natCast_div (α := α) i 5 (by norm_num)
  have h20 := floor_natCast_div (α := α) i (5 * 4) (by norm_num)
  have e4 : (((i / 5 : Nat) : ℤ) % ((4 : Nat) : ℤ)) = ((i / 5 % 4 : Nat) : ℤ) := by
    push_cast; rfl
  have e10 : (((i / (5 * 4) : Nat) : ℤ) % ((10 : Nat) : ℤ)) = ((i / 20 % 10 : Nat) : ℤ) := by
    push_cast; rfl
  simp only [gridTarget, Object3D.new, h5, h20, e4, e10, Int.cast_natCast]
  norm_num

end GeneratorLemmas

section GeneratorTheorems

variable {α : Type} [LinearOrderedField α] [FloorRing α]

/-- C1: each of the four layout generators, run with `count` on an empty target list,
yields exactly `count` targets, the target of index `i` at place `i` for `i = 0..count-1`
in index order; run with `count = 0` it yields the empty list. -/
theorem generators_yield_count_targets (M : MathEnv α) (count : Nat) :
    (generateTableLayout count ([] : List (Object3D α))
        = (List.range count).map (tableTarget count)
      ∧ (generateTableLayout count ([] : List (Object3D α))).length = count
      ∧ generateTableLayout 0 ([] : List (Object3D α)) = [])
    ∧ (generateSphereLayout M count [] = (List.range count).map (sphereTarget M count)
      ∧ (generateSphereLayout M count []).length = count
      ∧ generateSphereLayout M 0 [] = [])
    ∧ (generateHelixLayout M count [] = (List.range count).map (helixTarget M count)
      ∧ (generateHelixLayout M count []).length = count
      ∧ generateHelixLayout M 0 [] = [])
    ∧ (generateGridLayout count ([] : List (Object3D α)) = (List.range count).map gridTarget
      ∧ (generateGridLayout count ([] : List (Object3D α))).length = count
      ∧ generateGridLayout 0 ([] : List (Object3D α)) = []) := by
  refine ⟨⟨?_, ?_, ?_⟩, ⟨?_, ?_, ?_⟩, ⟨?_, ?_, ?_⟩, ⟨?_, ?_, ?_⟩⟩ <;>
    simp [generateTableLayout_eq, generateSphereLayout_eq, generateHelixLayout_eq,
      generateGridLayout_eq]

/-- C2: `generateTableLayout` lays the entities out row-major on a lattice of 20 columns.
For `count >= 1` and `i < count` (the second implies the first), target `i` has
`col = i mod 20 < 20`,
`row = floor(i/20) < rows = ceil(count/20)`, and position
`((col - 10)*160, (rows/2 - row)*200, 0)` with `rows/2` exact. Consecutive indices of one
row differ in `x` by exactly 160 with equal `y`; indices `i` and `i + 20` have equal `x`
and `y` lower by exactly 200. -/
theorem table_layout_row_major (count i : Nat) (hi : i < count) :
    (generateTableLayout count ([] : List (Object3D α)))[i]?
        = some
            { position :=
                { x := (((i % 20 : Nat) : α) - 10) * 160
                  y := (((⌈(count : α) / 20⌉ : ℤ) : α) / 2 - ((⌊(i : α) / 20⌋ : ℤ) : α)) * 200
                  z := 0 }
              rotation := ⟨0, 0, 0⟩ }
    ∧ i % 20 < 20
    ∧ ⌊(i : α) / 20⌋ = ((i / 20 : Nat) : ℤ)
    ∧ 0 ≤ ⌊(i : α) / 20⌋ ∧ ⌊(i : α) / 20⌋ < ⌈(count : α) / 20⌉
    ∧ (i + 1 < count → (i + 1) / 20 = i / 20 →
        ∃ a b, (generateTableLayout count ([] : List (Object3D α)))[i]? = some a
          ∧ (generateTableLayout count ([] : List (Object3D α)))[i + 1]? = some b
          ∧ b.position.x - a.position.x = 160 ∧ b.position.y = a.position.y)
    ∧ (i + 20 < count →
        ∃ a b, (generateTableLayout count ([] : List (Object3D α)))[i]? = some a
          ∧ (generateTableLayout count ([] : List (Object3D α)))[i + 20]? = some b
          ∧ b.position.x = a.position.x ∧ b.position.y = a.position.y - 200) := by
  have hfl : ⌊(i : α) / 20⌋ = ((i / 20 : Nat) : ℤ) := by
    have h := floor_natCast_div (α := α) i 20 (by norm_num)
    simpa using h
  have hget : ∀ j, j < count →
      (generateTableLayout count ([] : List (Object3D α)))[j]? = some (tableTarget count j) := by
    intro j hj
    rw [generateTableLayout_eq, List.nil_append]
    exact getElem?_map_range _ _ _ hj
  refine ⟨?_, Nat.mod_lt _ (by norm_num), hfl, ?_, ?_, ?_, ?_⟩
  · rw [hget i hi, tableTarget_eq, hfl, Int.cast_natCast]
  · rw [hfl]; exact Int.natCast_nonneg _
  · rw [Int.lt_ceil]
    have h1 : (((⌊(i : α) / 20⌋ : ℤ)) : α) ≤ (i : α) / 20 := Int.floor_le _
    have h2 : (i : α) / 20 < (count : α) / 20 := by
      have : (i : α) < (count : α) := by exact_mod_cast hi
      linarith
    linarith
  · intro h1 hrow
    refine ⟨_, _, hget i hi, hget (i + 1) h1, ?_, ?_⟩
    · have hmod : (i + 1) % 20 = i % 20 + 1 := by omega
      simp only [tableTarget_eq, hmod]
      push_cast
      ring
    · simp only [tableTarget_eq, hrow]
  · intro h20
    refine ⟨_, _, hget i hi, hget (i + 20) h20, ?_, ?_⟩
    · have hmod : (i + 20) % 20 = i % 20 := by omega
      simp only [tableTarget_eq, hmod]
    · have hdiv : (i + 20) / 20 = i / 20 + 1 := by omega
      simp only [tableTarget_eq, hdiv]
      push_cast
      ring

/-- Witness of C2: `count = 80` gives `rows = 4`, index 19 is at column 19 of row 0 and
index 20 at column 0 of row 1, 200 lower. -/
theorem table_layout_row_major_witness :
    19 < 80
    ∧ ⌈((80 : Nat) : ℚ) / 20⌉ = 4
    ∧ (19 % 20 = 19 ∧ ⌊((19 : Nat) : ℚ) / 20⌋ = 0)
    ∧ (20 % 20 = 0 ∧ ⌊((20 : Nat) : ℚ) / 20⌋ = 1)
    ∧ (generateTableLayout 80 ([] : List (Object3D ℚ)))[19]?
        = some { position := ⟨1440, 400, 0⟩, rotation := ⟨0, 0, 0⟩ }
    ∧ (generateTableLayout 80 ([] : List (Object3D ℚ)))[20]?
        = some { position := ⟨-1600, 200, 0⟩, rotation := ⟨0, 0, 0⟩ } := by
  have hceil : ⌈((80 : Nat) : ℚ) / 20⌉ = 4 := by
    rw [Int.ceil_eq_iff]; norm_num
  have h19 := table_layout_row_major (α := ℚ) 80 19 (by decide)
  have h20 := table_layout_row_major (α := ℚ) 80 20 (by decide)
  refine ⟨by decide, hceil, ⟨by decide, ?_⟩, ⟨by decide, ?_⟩, ?_, ?_⟩
  · rw [h19.2.2.1]; norm_num
  · rw [h20.2.2.1]; norm_num
  · rw [h19.1, hceil, h19.2.2.1]; norm_num
  · rw [h20.1, hceil, h20.2.2.1]; norm_num

/-- C3: the position `generateGridLayout` gives index `i` is
`((i mod 5 - 2.5)*200, (floor(i/5) mod 4 - 2)*200, (floor(i/20) mod 10 - 5)*200)`; for
`count <= 200` the positions of the indices `0..count-1` are pairwise distinct, and for
`count > 200` the targets `i` and `i + 200` have the same position whenever
`i + 200 < count`. -/
theorem grid_layout_distinct_then_wraps (count : Nat) :
    (∀ i, i < count →
      (generateGridLayout count ([] : List (Object3D α)))[i]?
        = some
            { position :=
                { x := (((i % 5 : Nat) : α) - 5 / 2) * 200
                  y := (((i / 5 % 4 : Nat) : α) - 2) * 200
                  z := (((i / 20 % 10 : Nat) : α) - 5) * 200 }
              rotation := ⟨0, 0, 0⟩ })
    ∧ (count ≤ 200 → ∀ i j, i < count → j < count → i ≠ j →
        ((generateGridLayout count ([] : List (Object3D α)))[i]?).map (fun t => t.position)
          ≠ ((generateGridLayout count ([] : List (Object3D α)))[j]?).map
              (fun t => t.position))
    ∧ (200 < count → ∀ i, i + 200 < count →
        ((generateGridLayout count ([] : List (Object3D α)))[i]?).map (fun t => t.position)
          = ((generateGridLayout count ([] : List (Object3D α)))[i + 200]?).map
              (fun t => t.position)) := by
  have hget : ∀ j, j < count →
      (generateGridLayout count ([] : List (Object3D α)))[j]? = some (gridTarget j) := by
    intro j hj
    rw [generateGridLayout_eq, List.nil_append]
    exact getElem?_map_range _ _ _ hj
  refine ⟨?_, ?_, ?_⟩
  · intro i hi
    rw [hget i hi, gridTarget_eq]
  · intro hc i j hi hj hij heq
    rw [hget i hi, hget j hj, gridTarget_eq, gridTarget_eq] at heq
    simp only [Option.map_some', Option.some.injEq, Vector3.mk.injEq, mul_eq_mul_right_iff,
      sub_left_inj, Nat.cast_inj] at heq
    norm_num at heq
    omega
  · intro _ i hi
    rw [hget i (by omega), hget (i + 200) hi, gridTarget_eq, gridTarget_eq]
    have h5 : (i + 200) % 5 = i % 5 := by omega
    have h4 : (i + 200) / 5 % 4 = i / 5 % 4 := by omega
    have h10 : (i + 200) / 20 % 10 = i / 20 % 10 := by omega
    simp only [h5, h4, h10]

/-- Witness of C3: with 200 entities the first and the last position differ; with 201
entities index 200 is placed on index 0. -/
theorem grid_layout_distinct_then_wraps_witness :
    (200 ≤ 200 ∧ 0 < 200 ∧ 199 < 200 ∧ 0 ≠ 199
      ∧ ((generateGridLayout 200 ([] : List (Object3D ℚ)))[0]?).map (fun t => t.position)
          ≠ ((generateGridLayout 200 ([] : List (Object3D ℚ)))[199]?).map
              (fun t => t.position))
    ∧ (200 < 201 ∧ 0 + 200 < 201
      ∧ ((generateGridLayout 201 ([] : List (Object3D ℚ)))[0]?).map (fun t => t.position)
          = ((generateGridLayout 201 ([] : List (Object3D ℚ)))[0 + 200]?).map
              (fun t => t.position)) :=
  ⟨⟨by decide, by decide, by decide, by decide,
      (grid_layout_distinct_then_wraps (α := ℚ) 200).2.1 (by decide) 0 199 (by decide)
        (by decide) (by decide)⟩,
    ⟨by decide, by decide,
      (grid_layout_distinct_then_wraps (α := ℚ) 201).2.2 (by decide) 0 (by decide)⟩⟩

end GeneratorTheorems

section RealTheorems

/-- C4: with `Math.acos`, `Math.sqrt`, `Math.sin`, `Math.cos`, `Math.PI` read over the
reals, for `count >= 1` and `i < count` the divisor `count` is not zero, the argument
`-1 + 2*i/count` of `acos` lies in `[-1, 1)`, `phi` lies in `(0, PI]`, target `i` of
`generateSphereLayout` is at `(800*sin(phi)*sin(theta), 800*cos(phi), 800*sin(phi)*cos(theta))`
with `theta = sqrt(count*PI)*phi`, and its Euclidean distance from the origin is exactly
800; for `count = 0` nothing is pushed. -/
theorem sphere_layout_on_radius_800 (lookAt : Vector3 ℝ → Vector3 ℝ → Vector3 ℝ)
    (count i : Nat) (hcount : 1 ≤ count) (hi : i < count) :
    let M : MathEnv ℝ := ⟨Real.pi, Real.arccos, Real.sqrt, Real.sin, Real.cos, lookAt⟩
    let phi : ℝ := Real.arccos (-1 + (2 * (i : ℝ)) / (count : ℝ))
    let theta : ℝ := Real.sqrt ((count : ℝ) * Real.pi) * phi
    (count : ℝ) ≠ 0
    ∧ (-1 ≤ -1 + (2 * (i : ℝ)) / (count : ℝ) ∧ -1 + (2 * (i : ℝ)) / (count : ℝ) < 1)
    ∧ (0 < phi ∧ phi ≤ Real.pi)
    ∧ (∃ target, (generateSphereLayout M count [])[i]? = some target
        ∧ target.position
            = { x := 800 * Real.sin phi * Real.sin theta
                y := 800 * Real.cos phi
                z := 800 * Real.sin phi * Real.cos theta }
        ∧ Real.sqrt (target.position.x ^ 2 + target.position.y ^ 2 + target.position.z ^ 2)
            = 800)
    ∧ generateSphereLayout M 0 [] = [] := by
  intro M phi theta
  have hc : (0 : ℝ) < (count : ℝ) := by exact_mod_cast hcount
  have hi' : (i : ℝ) < (count : ℝ) := by exact_mod_cast hi
  have hi0 : (0 : ℝ) ≤ (i : ℝ) := Nat.cast_nonneg i
  have hlo : -1 ≤ -1 + (2 * (i : ℝ)) / (count : ℝ) := by
    have : 0 ≤ (2 * (i : ℝ)) / (count : ℝ) := by positivity
    linarith
  have hhi : -1 + (2 * (i : ℝ)) / (count : ℝ) < 1 := by
    have : (2 * (i : ℝ)) / (count : ℝ) < 2 := by
      rw [div_lt_iff₀ hc]; linarith
    linarith
  refine ⟨ne_of_gt hc, ⟨hlo, hhi⟩, ⟨Real.arccos_pos.mpr hhi, Real.arccos_le_pi _⟩, ?_, ?_⟩
  · refine ⟨sphereTarget M count i, ?_, ?_, ?_⟩
    · rw [generateSphereLayout_eq, List.nil_append]
      exact getElem?_map_range _ _ _ hi
    · simp only [sphereTarget, setFromSphericalCoords, sphereTheta, spherePhi, M, phi, theta,
        Vector3.mk.injEq]
      refine ⟨by ring, by ring, by ring⟩
    · have h1 := Real.sin_sq_add_cos_sq phi
      have h2 := Real.sin_sq_add_cos_sq theta
      have hsq : (sphereTarget M count i).position.x ^ 2
          + (sphereTarget M count i).position.y ^ 2
          + (sphereTarget M count i).position.z ^ 2 = 800 ^ 2 := by
        simp only [sphereTarget, setFromSphericalCoords, sphereTheta, spherePhi, M]
        calc (Real.sin phi * 800 * Real.sin theta) ^ 2 + (Real.cos phi * 800) ^ 2
              + (Real.sin phi * 800 * Real.cos theta) ^ 2
            = 800 ^ 2 * (Real.sin phi ^ 2 * (Real.sin theta ^ 2 + Real.cos theta ^ 2)
                + Real.cos phi ^ 2) := by ring
          _ = 800 ^ 2 := by rw [h2, mul_one, h1, mul_one]
      rw [hsq]
      exact Real.sqrt_sq (by norm_num)
  · simp [generateSphereLayout_eq]

/-- C5: with `Math.sin`, `Math.cos`, `Math.PI` read over the reals, for `count >= 1` and
`i < count` target `i` of `generateHelixLayout` is at
`(600*cos(a), (t - 1/2)*1500, 600*sin(a))` with `t = i/count` and
`a = t*5*2*PI + (i mod 2)*PI`: an even index lies on the curve of phase 0, an odd index on
the curve of phase `PI`. At equal `t` the angles of the two curves differ by exactly `PI`,
and the point of the odd curve is the point of the even curve with `x` and `z` negated
and `y` equal. -/
theorem helix_layout_two_strands (lookAt : Vector3 ℝ → Vector3 ℝ → Vector3 ℝ)
    (count i : Nat) (hcount : 1 ≤ count) (hi : i < count) :
    let M : MathEnv ℝ := ⟨Real.pi, Real.arccos, Real.sqrt, Real.sin, Real.cos, lookAt⟩
    let t : ℝ := (i : ℝ) / (count : ℝ)
    let a : ℝ := t * 5 * 2 * Real.pi + ((i % 2 : Nat) : ℝ) * Real.pi
    (count : ℝ) ≠ 0
    ∧ (∃ target, (generateHelixLayout M count [])[i]? = some target
        ∧ target.position = { x := 600 * Real.cos a, y := (t - 1 / 2) * 1500,
                              z := 600 * Real.sin a }
        ∧ (i % 2 = 0 → target.position = helixPosition M t 0)
        ∧ (i % 2 = 1 → target.position = helixPosition M t Real.pi))
    ∧ (∀ u : ℝ,
        (u * 5 * 2 * Real.pi + Real.pi) - (u * 5 * 2 * Real.pi + 0) = Real.pi
        ∧ (helixPosition M u Real.pi).x = -(helixPosition M u 0).x
        ∧ (helixPosition M u Real.pi).y = (helixPosition M u 0).y
        ∧ (helixPosition M u Real.pi).z = -(helixPosition M u 0).z) := by
  intro M t a
  have hc : (0 : ℝ) < (count : ℝ) := by exact_mod_cast hcount
  refine ⟨ne_of_gt hc, ⟨helixTarget M count i, ?_, ?_, ?_, ?_⟩, ?_⟩
  · rw [generateHelixLayout_eq, List.nil_append]
    exact getElem?_map_range _ _ _ hi
  · simp only [helixTarget, helixPosition, M, t, a]
  · intro h
    simp only [helixTarget, h, Nat.cast_zero, zero_mul, t]
  · intro h
    simp only [helixTarget, h, Nat.cast_one, one_mul, t, M]
  · intro u
    refine ⟨by ring, ?_, ?_, ?_⟩
    · simp only [helixPosition, M, add_zero, Real.cos_add_pi]
      ring
    · simp only [helixPosition]
    · simp only [helixPosition, M, add_zero, Real.sin_add_pi]
      ring

/-- Witness of C4: `count = 1` gives a single target, with `phi = PI`, at distance 800
from the origin. -/
theorem sphere_layout_on_radius_800_witness :
    1 ≤ 1 ∧ 0 < 1
    ∧ Real.arccos (-1 + (2 * ((0 : Nat) : ℝ)) / ((1 : Nat) : ℝ)) = Real.pi
    ∧ (generateSphereLayout
          (⟨Real.pi, Real.arccos, Real.sqrt, Real.sin, Real.cos, fun _ v => v⟩ : MathEnv ℝ)
          1 []).length = 1
    ∧ ∃ target,
        (generateSphereLayout
          (⟨Real.pi, Real.arccos, Real.sqrt, Real.sin, Real.cos, fun _ v => v⟩ : MathEnv ℝ)
          1 [])[0]? = some target
        ∧ Real.sqrt (target.position.x ^ 2 + target.position.y ^ 2 + target.position.z ^ 2)
            = 800 := by
  obtain ⟨_, _, _, ⟨target, h1, _, h3⟩, _⟩ :=
    sphere_layout_on_radius_800 (fun _ v => v) 1 0 (by decide) (by decide)
  refine ⟨by decide, by decide, ?_, ?_, target, h1, h3⟩
  · simp [Real.arccos_neg_one]
  · simp [generateSphereLayout_eq]

/-- Witness of C5: with two entities, index 1 lies on the strand of phase `PI`. -/
theorem helix_layout_two_strands_witness :
    1 ≤ 2 ∧ 1 < 2
    ∧ ∃ target,
        (generateHelixLayout
          (⟨Real.pi, Real.arccos, Real.sqrt, Real.sin, Real.cos, fun _ v => v⟩ : MathEnv ℝ)
          2 [])[1]? = some target
        ∧ target.position
            = helixPosition
                (⟨Real.pi, Real.arccos, Real.sqrt, Real.sin, Real.cos, fun _ v => v⟩ :
                  MathEnv ℝ)
                (((1 : Nat) : ℝ) / ((2 : Nat) : ℝ)) Real.pi := by
  obtain ⟨_, ⟨target, h1, _, _, h4⟩, _⟩ :=
    helix_layout_two_strands (fun _ v => v) 2 1 (by decide) (by decide)
  exact ⟨by decide, by decide, target, h1, h4 (by decide)⟩

end RealTheorems

/-! ## Properties of the rounding to double -/

section RoundingLemmas

/-- The nearest integer is the floor, or the floor plus one when the fraction is at least
one half. -/
theorem roundHalfEven_cases (q : ℚ) :
    roundHalfEven q = ⌊q⌋ ∨ (roundHalfEven q = ⌊q⌋ + 1 ∧ 1 / 2 ≤ q - ⌊q⌋) := by
  unfold roundHalfEven
  simp only
  split_ifs with h1 h2 h3
  · exact Or.inl rfl
  · exact Or.inr ⟨rfl, le_of_lt h2⟩
  · exact Or.inl rfl
  · exact Or.inr ⟨rfl, not_lt.mp h1⟩

/-- Rounding to the nearest integer does not pass an integer above. -/
theorem roundHalfEven_le (q : ℚ) (N : ℤ) (h : q ≤ N) : roundHalfEven q ≤ N := by
  have hf : (⌊q⌋ : ℚ) ≤ q := Int.floor_le q
  rcases roundHalfEven_cases q with h1 | ⟨h1, h2⟩
  · rw [h1]
    have : (⌊q⌋ : ℚ) ≤ N := le_trans hf h
    exact_mod_cast this
  · rw [h1]
    have : (⌊q⌋ : ℚ) < N := by linarith
    have : ⌊q⌋ < N := by exact_mod_cast this
    omega

/-- Rounding to the nearest integer does not pass an integer below. -/
theorem le_roundHalfEven (q : ℚ) (N : ℤ) (h : (N : ℚ) ≤ q) : N ≤ roundHalfEven q := by
  have hf : N ≤ ⌊q⌋ := Int.le_floor.mpr h
  rcases roundHalfEven_cases q with h1 | ⟨h1, _⟩
  · rw [h1]; exact hf
  · rw [h1]; omega

/-- An integer is its own nearest integer. -/
theorem roundHalfEven_intCast (N : ℤ) : roundHalfEven (N : ℚ) = N :=
  le_antisymm (roundHalfEven_le _ _ le_rfl) (le_roundHalfEven _ _ le_rfl)

/-- Rounding to the nearest integer, ties to even, is monotone. -/
theorem roundHalfEven_mono (p q : ℚ) (h : p ≤ q) : roundHalfEven p ≤ roundHalfEven q := by
  have hfl : ⌊p⌋ ≤ ⌊q⌋ := Int.floor_mono h
  rcases lt_or_eq_of_le hfl with hlt | heq
  · have h1 : roundHalfEven p ≤ ⌊p⌋ + 1 := by
      rcases roundHalfEven_cases p with h1 | ⟨h1, _⟩
      · rw [h1]; omega
      · rw [h1]
    have h2 : ⌊q⌋ ≤ roundHalfEven q := le_roundHalfEven _ _ (Int.floor_le q)
    omega
  · unfold roundHalfEven
    simp only
    rw [heq]
    have hpq : p - (⌊q⌋ : ℚ) ≤ q - (⌊q⌋ : ℚ) := by linarith
    split_ifs <;> first | omega | (exfalso; linarith)


/-- The binade of a positive number: `2^e <= x < 2^(e+1)` for `e = Int.log 2 x`. -/
theorem binade_bounds (x : ℚ) (hx : 0 < x) :
    (2 : ℚ) ^ Int.log 2 x ≤ x ∧ x < (2 : ℚ) ^ (Int.log 2 x + 1) := by
  have h1 := Int.zpow_log_le_self (b := 2) (r := x) (by norm_num) hx
  have h2 := Int.lt_zpow_succ_log_self (b := 2) (by norm_num) x
  exact ⟨by exact_mod_cast h1, by exact_mod_cast h2⟩

/-- The binade `e` of a positive number is determined by `2^e <= x < 2^(e+1)`. -/
theorem binade_eq (x : ℚ) (e : ℤ) (hx : 0 < x) (h1 : (2 : ℚ) ^ e ≤ x)
    (h2 : x < (2 : ℚ) ^ (e + 1)) : Int.log 2 x = e := by
  apply le_antisymm
  · have := (Int.lt_zpow_iff_log_lt (b := 2) (by norm_num) (x := e + 1) hx).mp
      (by exact_mod_cast h2)
    omega
  · exact (Int.zpow_le_iff_le_log (b := 2) (by norm_num) hx).mp (by exact_mod_cast h1)

/-- The value of `roundDouble` at a positive number of binade `e`. -/
theorem roundDouble_eq (x : ℚ) (e : ℤ) (hx : 0 < x) (h1 : (2 : ℚ) ^ e ≤ x)
    (h2 : x < (2 : ℚ) ^ (e + 1)) :
    roundDouble x = (roundHalfEven (x / 2 ^ (e - 52)) : ℚ) * 2 ^ (e - 52) := by
  unfold roundDouble
  rw [if_neg (ne_of_gt hx), abs_of_pos hx, binade_eq x e hx h1 h2]

/-- A positive number of binade `e` is rounded into `[2^e, 2^(e+1)]`. -/
theorem roundDouble_binade (x : ℚ) (e : ℤ) (hx : 0 < x) (h1 : (2 : ℚ) ^ e ≤ x)
    (h2 : x < (2 : ℚ) ^ (e + 1)) :
    (2 : ℚ) ^ e ≤ roundDouble x ∧ roundDouble x ≤ (2 : ℚ) ^ (e + 1) := by
  have hu : (0 : ℚ) < 2 ^ (e - 52) := zpow_pos (by norm_num) _
  have e1 : (2 : ℚ) ^ e = ((2 ^ 52 : ℤ) : ℚ) * 2 ^ (e - 52) := by
    calc (2 : ℚ) ^ e = 2 ^ ((52 : ℤ) + (e - 52)) := by congr 1; ring
      _ = 2 ^ (52 : ℤ) * 2 ^ (e - 52) := zpow_add₀ (by norm_num) _ _
      _ = ((2 ^ 52 : ℤ) : ℚ) * 2 ^ (e - 52) := by norm_num
  have e2 : (2 : ℚ) ^ (e + 1) = ((2 ^ 53 : ℤ) : ℚ) * 2 ^ (e - 52) := by
    rw [zpow_add₀ (by norm_num : (2 : ℚ) ≠ 0), e1]
    push_cast
    ring
  rw [roundDouble_eq x e hx h1 h2]
  constructor
  · rw [e1]
    apply mul_le_mul_of_nonneg_right _ (le_of_lt hu)
    have : (2 ^ 52 : ℤ) ≤ roundHalfEven (x / 2 ^ (e - 52)) := by
      apply le_roundHalfEven
      rw [le_div_iff₀ hu, ← e1]
      exact h1
    exact_mod_cast this
  · rw [e2]
    apply mul_le_mul_of_nonneg_right _ (le_of_lt hu)
    have : roundHalfEven (x / 2 ^ (e - 52)) ≤ (2 ^ 53 : ℤ) := by
      apply roundHalfEven_le
      rw [div_le_iff₀ hu, ← e2]
      exact le_of_lt h2
    exact_mod_cast this

/-- Rounding to double is monotone on the non-negative numbers. -/
theorem roundDouble_mono (x y : ℚ) (hx : 0 ≤ x) (hxy : x ≤ y) :
    roundDouble x ≤ roundDouble y := by
  rcases eq_or_lt_of_le hx with h0 | hpos
  · subst h0
    rcases eq_or_lt_of_le hxy with h0 | hy
    · rw [← h0]
    · obtain ⟨b1, _⟩ := binade_bounds y hy
      obtain ⟨b2, b3⟩ := binade_bounds y hy
      have := (roundDouble_binade y _ hy b2 b3).1
      have hp : (0 : ℚ) < 2 ^ Int.log 2 y := zpow_pos (by norm_num) _
      have hz : roundDouble 0 = 0 := by simp [roundDouble]
      rw [hz]
      linarith
  · have hy : 0 < y := lt_of_lt_of_le hpos hxy
    obtain ⟨x1, x2⟩ := binade_bounds x hpos
    obtain ⟨y1, y2⟩ := binade_bounds y hy
    have hlog : Int.log 2 x ≤ Int.log 2 y := Int.log_mono_right hpos hxy
    rcases lt_or_eq_of_le hlog with hlt | heq
    · have hx' := (roundDouble_binade x _ hpos x1 x2).2
      have hy' := (roundDouble_binade y _ hy y1 y2).1
      have hpow : (2 : ℚ) ^ (Int.log 2 x + 1) ≤ 2 ^ Int.log 2 y :=
        zpow_le_zpow_right₀ (by norm_num) (by omega)
      linarith
    · rw [roundDouble_eq x _ hpos x1 x2, roundDouble_eq y _ hy y1 y2, heq]
      have hu : (0 : ℚ) < 2 ^ (Int.log 2 y - 52) := zpow_pos (by norm_num) _
      apply mul_le_mul_of_nonneg_right _ (le_of_lt hu)
      have : roundHalfEven (x / 2 ^ (Int.log 2 y - 52))
          ≤ roundHalfEven (y / 2 ^ (Int.log 2 y - 52)) :=
        roundHalfEven_mono _ _ (div_le_div_of_nonneg_right hxy (le_of_lt hu))
      exact_mod_cast this

/-- The number 2000 is a double. -/
theorem roundDouble_2000 : roundDouble 2000 = 2000 := by
  rw [roundDouble_eq 2000 10 (by norm_num) (by norm_num) (by norm_num)]
  have : (2000 : ℚ) / 2 ^ ((10 : ℤ) - 52) = ((2000 * 2 ^ 42 : ℤ) : ℚ) := by
    norm_num
  rw [this, roundHalfEven_intCast]
  norm_num

/-- The number `2000 * 2` is a double. -/
theorem roundDouble_4000 : roundDouble (2000 * 2) = 2000 * 2 := by
  rw [roundDouble_eq (2000 * 2) 11 (by norm_num) (by norm_num) (by norm_num)]
  have : (2000 * 2 : ℚ) / 2 ^ ((11 : ℤ) - 52) = ((4000 * 2 ^ 41 : ℤ) : ℚ) := by
    norm_num
  rw [this, roundHalfEven_intCast]
  norm_num


/-- A number less than half above an integer is rounded down to it. -/
theorem roundHalfEven_down (q : ℚ) (f : ℤ) (h1 : (f : ℚ) ≤ q) (h2 : q - f < 1 / 2) :
    roundHalfEven q = f := by
  have hf : ⌊q⌋ = f := by
    rw [Int.floor_eq_iff]
    exact ⟨h1, by linarith⟩
  unfold roundHalfEven
  simp only
  rw [hf, if_pos h2]

/-- A number half way above an odd integer is rounded up to the even one. -/
theorem roundHalfEven_tie_odd (q : ℚ) (f : ℤ) (h : q - f = 1 / 2) (hodd : f % 2 = 1) :
    roundHalfEven q = f + 1 := by
  have hf : ⌊q⌋ = f := by
    rw [Int.floor_eq_iff]
    exact ⟨by linarith, by linarith⟩
  unfold roundHalfEven
  simp only
  rw [hf, if_neg (by rw [h]; exact lt_irrefl _), if_neg (by rw [h]; exact lt_irrefl _),
    if_neg (by omega)]

/-- In doubles, `(1 - 2^-53) * 2000` is `2000 - 2^-42`. -/
theorem roundDouble_maxRandom_mul :
    roundDouble ((1 - 1 / 2 ^ 53) * 2000) = 2000 - 1 / 2 ^ 42 := by
  rw [roundDouble_eq _ 10 (by norm_num) (by norm_num) (by norm_num)]
  rw [roundHalfEven_down _ (2000 * 2 ^ 42 - 1) (by norm_num) (by norm_num)]
  norm_num

/-- In doubles, `(2000 - 2^-42) + 2000` is `4000`: a tie, rounded to the even neighbour. -/
theorem roundDouble_maxRandom_add :
    roundDouble (2000 - 1 / 2 ^ 42 + 2000) = 2000 * 2 := by
  rw [roundDouble_eq _ 11 (by norm_num) (by norm_num) (by norm_num)]
  rw [roundHalfEven_tie_odd _ (4000 * 2 ^ 41 - 1) (by norm_num) (by norm_num)]
  norm_num

/-- Zero is a double. -/
theorem roundDouble_zero : roundDouble 0 = 0 := by
  simp [roundDouble]

/-- A fact about the example data: the values of `maxRandom` lie in `[0, 1)`. -/
theorem maxRandom_range : ∀ n, 0 ≤ maxRandom n ∧ maxRandom n < 1 := by
  intro n
  simp only [maxRandom]
  constructor <;> norm_num

/-- In doubles, `Math.random() * duration + duration` at `Math.random() = 1 - 2^-53` and
`duration = 2000` is `4000`, that is `duration * 2`. -/
theorem maxRandom_duration (n : Nat) :
    roundDouble (roundDouble (maxRandom n * 2000) + 2000) = 2000 * 2 := by
  simp only [maxRandom]
  rw [roundDouble_maxRandom_mul, roundDouble_maxRandom_add]

end RoundingLemmas

/-! ## Properties of the transition engine -/

section WriteLemmas

variable {α : Type}

theorem write_targets (s : State α) (v : Vector3 α) (obj : TweenObject) :
    (obj.write s v).targets = s.targets := by
  cases obj <;> simp only [TweenObject.write] <;> split <;> rfl

theorem write_renderCalls (s : State α) (v : Vector3 α) (obj : TweenObject) :
    (obj.write s v).renderCalls = s.renderCalls := by
  cases obj <;> simp only [TweenObject.write] <;> split <;> rfl

theorem write_objects_length (s : State α) (v : Vector3 α) (obj : TweenObject) :
    (obj.write s v).objects.length = s.objects.length := by
  cases obj <;> simp only [TweenObject.write] <;> split <;> simp

theorem write_getElem?_ne (s : State α) (v : Vector3 α) (obj : TweenObject) (i : Nat)
    (h1 : obj ≠ .position i) (h2 : obj ≠ .rotation i) :
    (obj.write s v).objects[i]? = s.objects[i]? := by
  cases obj with
  | position j =>
    have hne : j ≠ i := fun h => h1 (by rw [h])
    simp only [TweenObject.write]
    split
    · simp [List.getElem?_set_ne hne]
    · rfl
  | rotation j =>
    have hne : j ≠ i := fun h => h2 (by rw [h])
    simp only [TweenObject.write]
    split
    · simp [List.getElem?_set_ne hne]
    · rfl
  | blank => rfl

end WriteLemmas

section EngineLemmas

variable {α : Type} [LinearOrderedField α]

/-- The callback loop of `transform` leaves objects, targets and render count alone and
appends the tasks of the pairs (object, target) to the active set. -/
theorem transformForEach_eq (fl : α → α) (random : Nat → α) (targetsArray : List (Object3D α))
    (duration now : α) :
    ∀ (objs : List (Object3D α)) (k : Nat) (s : State α),
      (∀ j, objs[j]? = s.objects[k + j]?) →
      transformForEach fl random targetsArray duration now k objs s
        = { s with
            tweens := s.tweens ++ startedTweens fl random duration now s.randomCalls k
              (objs.zip (targetsArray.drop k))
            randomCalls := s.randomCalls + 2 * (objs.zip (targetsArray.drop k)).length } := by
  intro objs
  induction objs with
  | nil =>
    intro k s _
    cases s
    simp [transformForEach, startedTweens]
  | cons object rest ih =>
    intro k s h
    have h0 : s.objects[k]? = some object := by simpa using (h 0).symm
    have hrest : ∀ j, rest[j]? = s.objects[k + 1 + j]? := by
      intro j
      have := h (j + 1)
      simpa [Nat.add_assoc, Nat.add_comm 1 j] using this
    cases hT : targetsArray[k]? with
    | none =>
      have hk : targetsArray.length ≤ k := by
        simpa [List.getElem?_eq_none_iff] using hT
      have hd : targetsArray.drop k = [] := List.drop_eq_nil_of_le hk
      have hd1 : targetsArray.drop (k + 1) = [] := List.drop_eq_nil_of_le (by omega)
      rw [transformForEach, hT]
      simp only
      rw [ih (k + 1) s hrest, hd, hd1]
      simp [startedTweens]
    | some target =>
      have hk : k < targetsArray.length := by
        by_contra hcon
        have : targetsArray[k]? = none := List.getElem?_eq_none_iff.mpr (by omega)
        rw [this] at hT
        exact Option.noConfusion hT
      have hget : targetsArray[k] = target := by
        have := List.getElem?_eq_getElem hk
        rw [this] at hT
        exact Option.some.inj hT
      have hd : targetsArray.drop k = target :: targetsArray.drop (k + 1) := by
        rw [← hget]
        exact List.drop_eq_getElem_cons hk
      rw [transformForEach, hT]
      simp only
      rw [ih (k + 1) _ (by simpa [tweenStart] using hrest), hd]
      cases s
      simp only [tweenStart, TweenObject.read, Option.isSome_some, if_true] at h0 ⊢
      simp only [h0, Option.map_some', List.zip_cons_cons, startedTweens, List.length_cons,
        List.append_assoc, List.cons_append, List.nil_append, List.singleton_append]
      congr 1
      omega

/-- The state after `transform`: previous tasks gone, the tasks of the pairs
(object, target) and the render task active, two calls of `Math.random()` per pair. -/
theorem transform_eq (fl : α → α) (random : Nat → α) (targetsArray : List (Object3D α))
    (duration now : α) (s : State α) :
    transform fl random targetsArray duration now s
      = { s with
          tweens := startedTweens fl random duration now s.randomCalls 0
              (s.objects.zip targetsArray) ++ [renderTween fl duration now]
          randomCalls := s.randomCalls + 2 * (s.objects.zip targetsArray).length } := by
  unfold transform
  simp only
  rw [transformForEach_eq fl random targetsArray duration now (removeAll s).objects 0 (removeAll s)
    (by intro j; simp)]
  cases s
  simp [tweenStart, removeAll, renderTween, TweenObject.read]

/-- Every task started for the pairs from index `i` on is an entity task of an index
`j` with `i <= j < i + number of pairs`, started at `now`, without update callback, of
duration `r * duration + duration` for a value `r` of the random source. -/
theorem startedTweens_mem (fl : α → α) (random : Nat → α) (duration now : α) :
    ∀ (pairs : List (Object3D α × Object3D α)) (c i : Nat) (tw : Tween α),
      tw ∈ startedTweens fl random duration now c i pairs →
      tw.onUpdate = false ∧ tw.startTime = now
        ∧ (∃ n, tw.duration = fl (fl (random n * duration) + duration))
        ∧ (∃ j, i ≤ j ∧ j < i + pairs.length
            ∧ (tw.object = .position j ∨ tw.object = .rotation j)) := by
  intro pairs
  induction pairs with
  | nil => intro c i tw h; simp [startedTweens] at h
  | cons p rest ih =>
    intro c i tw h
    obtain ⟨object, target⟩ := p
    simp only [startedTweens, List.cons_append, List.nil_append, List.mem_cons] at h
    rcases h with h | h | h
    · subst h
      exact ⟨rfl, rfl, ⟨c, rfl⟩, ⟨i, le_refl _, by simp, Or.inl rfl⟩⟩
    · subst h
      exact ⟨rfl, rfl, ⟨c + 1, rfl⟩, ⟨i, le_refl _, by simp, Or.inr rfl⟩⟩
    · obtain ⟨h1, h2, h3, j, hj1, hj2, hj3⟩ := ih (c + 2) (i + 1) tw h
      refine ⟨h1, h2, h3, j, by omega, ?_, hj3⟩
      simp only [List.length_cons]
      omega

/-- Among the tasks started for the pairs from index `i` on, exactly one animates the
position of entity `j`, and exactly one its rotation: those of pair `j - i`. -/
theorem startedTweens_filter (fl : α → α) (random : Nat → α) (duration now : α) :
    ∀ (pairs : List (Object3D α × Object3D α)) (c i j : Nat) (object target : Object3D α),
      i ≤ j → pairs[j - i]? = some (object, target) →
      (startedTweens fl random duration now c i pairs).filter
          (fun tw => decide (tw.object = .position j))
        = [{ object := .position j, valuesStart := some object.position,
             valuesEnd := some target.position,
             duration := fl (fl (random (c + 2 * (j - i)) * duration) + duration),
             startTime := now, easing := .exponentialInOut, onUpdate := false }]
      ∧ (startedTweens fl random duration now c i pairs).filter
          (fun tw => decide (tw.object = .rotation j))
        = [{ object := .rotation j, valuesStart := some object.rotation,
             valuesEnd := some target.rotation,
             duration := fl (fl (random (c + 2 * (j - i) + 1) * duration) + duration),
             startTime := now, easing := .exponentialInOut, onUpdate := false }] := by
  intro pairs
  induction pairs with
  | nil => intro c i j object target _ h; simp at h
  | cons p rest ih =>
    intro c i j object target hij h
    obtain ⟨o, t⟩ := p
    rcases Nat.eq_or_lt_of_le hij with heq | hlt
    · subst heq
      simp only [Nat.sub_self, List.getElem?_cons_zero, Option.some.injEq,
        Prod.mk.injEq] at h
      obtain ⟨rfl, rfl⟩ := h
      have hnone : ∀ tw ∈ startedTweens fl random duration now (c + 2) (i + 1) rest,
          tw.object ≠ .position i ∧ tw.object ≠ .rotation i := by
        intro tw htw
        obtain ⟨_, _, _, j, hj1, _, hj3⟩ := startedTweens_mem fl random duration now _ _ _ tw htw
        rcases hj3 with hj3 | hj3 <;> rw [hj3] <;> constructor <;> simp <;> omega
      have hp : (startedTweens fl random duration now (c + 2) (i + 1) rest).filter
          (fun tw => decide (tw.object = .position i)) = [] := by
        rw [List.filter_eq_nil_iff]
        intro tw htw
        simpa using (hnone tw htw).1
      have hr : (startedTweens fl random duration now (c + 2) (i + 1) rest).filter
          (fun tw => decide (tw.object = .rotation i)) = [] := by
        rw [List.filter_eq_nil_iff]
        intro tw htw
        simpa using (hnone tw htw).2
      constructor
      · simp [startedTweens, List.filter_cons, hp]
      · simp [startedTweens, List.filter_cons, hr]
    · have hidx : j - i = (j - (i + 1)) + 1 := by omega
      rw [hidx, List.getElem?_cons_succ] at h
      obtain ⟨ih1, ih2⟩ := ih (c + 2) (i + 1) j object target (by omega) h
      have hne : i ≠ j := by omega
      have hc : c + 2 + 2 * (j - (i + 1)) = c + 2 * (j - i) := by omega
      rw [hc] at ih1 ih2
      constructor
      · simp [startedTweens, List.filter_cons, hne, ih1]
      · simp [startedTweens, List.filter_cons, hne, ih2]

/-! ### The update step of the tween library -/

/-- Whether a task stays active after an update does not depend on the state. -/
theorem update_fst (ease : α → α) (t : α) (tw : Tween α) (s : State α) :
    (tw.update ease t s).1
      = if t < tw.startTime then true
        else decide ((if tw.duration = 0 ∨ (t - tw.startTime) / tw.duration > 1 then 1
          else (t - tw.startTime) / tw.duration) ≠ 1) := by
  unfold Tween.update
  by_cases h : t < tw.startTime
  · simp [h]
  · simp only [h, if_false]

theorem update_fst_indep (ease : α → α) (t : α) (tw : Tween α) (s s0 : State α) :
    (tw.update ease t s).1 = (tw.update ease t s0).1 := by
  rw [update_fst, update_fst]

theorem update_targets (ease : α → α) (t : α) (tw : Tween α) (s : State α) :
    (tw.update ease t s).2.targets = s.targets := by
  obtain ⟨obj, vs, ve, dur, st, e, ou⟩ := tw
  unfold Tween.update
  by_cases h : t < st
  · simp [h]
  · simp only [h, if_false]
    cases vs <;> cases ve <;> cases ou <;> simp [render, write_targets]

theorem update_objects_length (ease : α → α) (t : α) (tw : Tween α) (s : State α) :
    (tw.update ease t s).2.objects.length = s.objects.length := by
  obtain ⟨obj, vs, ve, dur, st, e, ou⟩ := tw
  unfold Tween.update
  by_cases h : t < st
  · simp [h]
  · simp only [h, if_false]
    cases vs <;> cases ve <;> cases ou <;> simp [render, write_objects_length]

theorem update_renderCalls (ease : α → α) (t : α) (tw : Tween α) (s : State α) :
    (tw.update ease t s).2.renderCalls
      = s.renderCalls + if (decide (¬ t < tw.startTime) && tw.onUpdate) = true then 1 else 0 := by
  obtain ⟨obj, vs, ve, dur, st, e, ou⟩ := tw
  unfold Tween.update
  by_cases h : t < st
  · simp [h]
  · simp only [h, if_false]
    cases vs <;> cases ve <;> cases ou <;> simp [render, write_renderCalls, h]

theorem update_getElem? (ease : α → α) (t : α) (tw : Tween α) (s : State α) (i : Nat)
    (h1 : tw.object ≠ .position i) (h2 : tw.object ≠ .rotation i) :
    (tw.update ease t s).2.objects[i]? = s.objects[i]? := by
  obtain ⟨obj, vs, ve, dur, st, e, ou⟩ := tw
  unfold Tween.update
  by_cases h : t < st
  · simp [h]
  · simp only [h, if_false]
    cases vs <;> cases ve <;> cases ou <;>
      simp [render, write_getElem?_ne _ _ _ i h1 h2]

/-- The loop of `TWEEN_update`: the tasks kept, and what it leaves alone. -/
theorem TWEEN_update_fold (ease : α → α) (t : α) (s0 : State α) :
    ∀ (tws acc : List (Tween α)) (st : State α),
      (tws.foldl
          (fun (acc : List (Tween α) × State α) tw =>
            ((if (tw.update ease t acc.2).1 then acc.1 ++ [tw] else acc.1),
              (tw.update ease t acc.2).2))
          (acc, st)).1
        = acc ++ tws.filter (fun tw => (tw.update ease t s0).1)
      ∧ (tws.foldl
          (fun (acc : List (Tween α) × State α) tw =>
            ((if (tw.update ease t acc.2).1 then acc.1 ++ [tw] else acc.1),
              (tw.update ease t acc.2).2))
          (acc, st)).2.targets = st.targets
      ∧ (tws.foldl
          (fun (acc : List (Tween α) × State α) tw =>
            ((if (tw.update ease t acc.2).1 then acc.1 ++ [tw] else acc.1),
              (tw.update ease t acc.2).2))
          (acc, st)).2.objects.length = st.objects.length
      ∧ (tws.foldl
          (fun (acc : List (Tween α) × State α) tw =>
            ((if (tw.update ease t acc.2).1 then acc.1 ++ [tw] else acc.1),
              (tw.update ease t acc.2).2))
          (acc, st)).2.renderCalls
        = st.renderCalls + tws.countP (fun tw => decide (¬ t < tw.startTime) && tw.onUpdate)
      ∧ ∀ i, (∀ tw ∈ tws, tw.object ≠ .position i ∧ tw.object ≠ .rotation i) →
        (tws.foldl
          (fun (acc : List (Tween α) × State α) tw =>
            ((if (tw.update ease t acc.2).1 then acc.1 ++ [tw] else acc.1),
              (tw.update ease t acc.2).2))
          (acc, st)).2.objects[i]? = st.objects[i]? := by
  intro tws
  induction tws with
  | nil => intro acc st; simp
  | cons tw rest ih =>
    intro acc st
    obtain ⟨ih1, ih2, ih3, ih4, ih5⟩ :=
      ih (if (tw.update ease t st).1 then acc ++ [tw] else acc) (tw.update ease t st).2
    simp only [List.foldl_cons]
    refine ⟨?_, ?_, ?_, ?_, ?_⟩
    · rw [ih1, update_fst_indep ease t tw st s0]
      by_cases hk : (tw.update ease t s0).1 = true
      · simp [hk, List.filter_cons]
      · simp [hk, List.filter_cons]
    · rw [ih2, update_targets]
    · rw [ih3, update_objects_length]
    · rw [ih4, update_renderCalls, List.countP_cons]
      omega
    · intro i hi
      rw [ih5 i (fun tw' h => hi tw' (List.mem_cons_of_mem _ h))]
      exact update_getElem? ease t tw st i (hi tw (List.mem_cons_self _ _)).1
        (hi tw (List.mem_cons_self _ _)).2

theorem TWEEN_update_tweens (ease : α → α) (t : α) (s : State α) :
    (TWEEN_update ease t s).tweens = s.tweens.filter (fun tw => (tw.update ease t s).1) := by
  have h := (TWEEN_update_fold ease t s s.tweens [] s).1
  simpa [TWEEN_update] using h

theorem TWEEN_update_targets (ease : α → α) (t : α) (s : State α) :
    (TWEEN_update ease t s).targets = s.targets := by
  have h := (TWEEN_update_fold ease t s s.tweens [] s).2.1
  simpa [TWEEN_update] using h

theorem TWEEN_update_objects_length (ease : α → α) (t : α) (s : State α) :
    (TWEEN_update ease t s).objects.length = s.objects.length := by
  have h := (TWEEN_update_fold ease t s s.tweens [] s).2.2.1
  simpa [TWEEN_update] using h

theorem TWEEN_update_renderCalls (ease : α → α) (t : α) (s : State α) :
    (TWEEN_update ease t s).renderCalls
      = s.renderCalls
        + s.tweens.countP (fun tw => decide (¬ t < tw.startTime) && tw.onUpdate) := by
  have h := (TWEEN_update_fold ease t s s.tweens [] s).2.2.2.1
  simpa [TWEEN_update] using h

theorem TWEEN_update_getElem? (ease : α → α) (t : α) (s : State α) (i : Nat)
    (hi : ∀ tw ∈ s.tweens, tw.object ≠ .position i ∧ tw.object ≠ .rotation i) :
    (TWEEN_update ease t s).objects[i]? = s.objects[i]? := by
  have h := (TWEEN_update_fold ease t s s.tweens [] s).2.2.2.2 i hi
  simpa [TWEEN_update] using h

/-- The objects and end values of the started tasks depend only on the pairs and the
first index, not on the time, the duration or the random source. -/
theorem startedTweens_endpoints (fl fl2 : α → α) (random random2 : Nat → α)
    (duration duration2 now now2 : α) :
    ∀ (pairs : List (Object3D α × Object3D α)) (c c2 i : Nat),
      (startedTweens fl random duration now c i pairs).map Tween.endpoints
        = (startedTweens fl2 random2 duration2 now2 c2 i pairs).map Tween.endpoints := by
  intro pairs
  induction pairs with
  | nil => intro c c2 i; simp [startedTweens]
  | cons p rest ih =>
    intro c c2 i
    obtain ⟨object, target⟩ := p
    simp [startedTweens, Tween.endpoints, ih (c + 2) (c2 + 2) (i + 1)]

/-- Calls of `transform` do not move any object and do not touch the target lists. -/
theorem foldl_transform_frame (fl : α → α) (random : Nat → α) :
    ∀ (calls : List (List (Object3D α) × α × α)) (s : State α),
      (calls.foldl (fun st c => transform fl random c.1 c.2.1 c.2.2 st) s).objects = s.objects
      ∧ (calls.foldl (fun st c => transform fl random c.1 c.2.1 c.2.2 st) s).targets
          = s.targets := by
  intro calls
  induction calls with
  | nil => intro s; exact ⟨rfl, rfl⟩
  | cons c rest ih =>
    intro s
    obtain ⟨h1, h2⟩ := ih (transform fl random c.1 c.2.1 c.2.2 s)
    simp only [List.foldl_cons]
    rw [h1, h2, transform_eq]
    exact ⟨rfl, rfl⟩

/-- After `transform`, the tasks on the position and on the rotation of an entity with a
target are one each, from the current value of the entity to the target. -/
theorem transform_entity_tasks (fl : α → α) (random : Nat → α)
    (targetsArray : List (Object3D α)) (duration now : α) (s : State α) (i : Nat)
    (object target : Object3D α) (ho : s.objects[i]? = some object)
    (ht : targetsArray[i]? = some target) :
    (transform fl random targetsArray duration now s).tweens.filter
        (fun tw => decide (tw.object = .position i))
      = [{ object := .position i, valuesStart := some object.position,
           valuesEnd := some target.position,
           duration := fl (fl (random (s.randomCalls + 2 * i) * duration) + duration),
           startTime := now, easing := .exponentialInOut, onUpdate := false }]
    ∧ (transform fl random targetsArray duration now s).tweens.filter
        (fun tw => decide (tw.object = .rotation i))
      = [{ object := .rotation i, valuesStart := some object.rotation,
           valuesEnd := some target.rotation,
           duration := fl (fl (random (s.randomCalls + 2 * i + 1) * duration) + duration),
           startTime := now, easing := .exponentialInOut, onUpdate := false }] := by
  have hz : (s.objects.zip targetsArray)[i - 0]? = some (object, target) := by
    rw [Nat.sub_zero, List.getElem?_zip_eq_some]
    exact ⟨ho, ht⟩
  obtain ⟨h1, h2⟩ := startedTweens_filter fl random duration now (s.objects.zip targetsArray)
    s.randomCalls 0 i object target (Nat.zero_le _) hz
  rw [transform_eq]
  simp only [List.filter_append, h1, h2, Nat.sub_zero]
  constructor <;> simp [renderTween, List.filter_cons]

/-- An entity without task is not moved by the frame loop. -/
theorem runFrames_getElem? (ease : α → α) (i : Nat) :
    ∀ (frames : List α) (s : State α),
      (∀ tw ∈ s.tweens, tw.object ≠ .position i ∧ tw.object ≠ .rotation i) →
      (runFrames ease frames s).objects[i]? = s.objects[i]? := by
  intro frames
  induction frames with
  | nil => intro s _; rfl
  | cons t rest ih =>
    intro s hs
    have hstep : ∀ tw ∈ (TWEEN_update ease t s).tweens,
        tw.object ≠ .position i ∧ tw.object ≠ .rotation i := by
      intro tw htw
      rw [TWEEN_update_tweens] at htw
      exact hs tw (List.mem_of_mem_filter htw)
    have := ih (TWEEN_update ease t s) hstep
    simp only [runFrames, List.foldl_cons] at this ⊢
    rw [this, TWEEN_update_getElem? ease t s i hs]

/-- The tasks active after `transform`: the render task, or an entity task started at
`now`, without update callback, of duration `r * duration + duration`. -/
theorem transform_mem (fl : α → α) (random : Nat → α) (targetsArray : List (Object3D α))
    (duration now : α) (s : State α) (tw : Tween α)
    (htw : tw ∈ (transform fl random targetsArray duration now s).tweens) :
    tw = renderTween fl duration now
    ∨ (tw.onUpdate = false ∧ tw.startTime = now
        ∧ (∃ n, tw.duration = fl (fl (random n * duration) + duration))
        ∧ tw.object ≠ .blank) := by
  rw [transform_eq] at htw
  simp only [List.mem_append, List.mem_singleton] at htw
  rcases htw with htw | htw
  · obtain ⟨h1, h2, h3, j, _, _, h4⟩ := startedTweens_mem fl random duration now _ _ _ tw htw
    refine Or.inr ⟨h1, h2, h3, ?_⟩
    rcases h4 with h4 | h4 <;> rw [h4] <;> simp
  · exact Or.inl htw

/-- Bounds of `r * duration + duration` for `r` in `[0, 1)` and `duration > 0`. -/
theorem random_duration_bounds (r duration : α) (hd : 0 < duration) (h0 : 0 ≤ r)
    (h1 : r < 1) :
    duration ≤ r * duration + duration ∧ r * duration + duration < 2 * duration := by
  have hnn : 0 ≤ r * duration := mul_nonneg h0 (le_of_lt hd)
  have hlt : r * duration < 1 * duration := mul_lt_mul_of_pos_right h1 hd
  constructor
  · linarith
  · linarith

/-- Bounds of `fl (fl (r * duration) + duration)` for `r` in `[0, 1)` and `duration > 0`,
when the rounding `fl` is monotone on the non-negative numbers and leaves `0`, `duration`
and `duration * 2` as they are. -/
theorem rounded_duration_bounds (fl : α → α) (r duration : α) (hd : 0 < duration)
    (h0 : 0 ≤ r) (h1 : r < 1) (hmono : ∀ x y, 0 ≤ x → x ≤ y → fl x ≤ fl y)
    (hz : fl 0 = 0) (hfd : fl duration = duration)
    (hf2 : fl (duration * 2) = duration * 2) :
    duration ≤ fl (fl (r * duration) + duration)
    ∧ fl (fl (r * duration) + duration) ≤ duration * 2 := by
  obtain ⟨hb1, hb2⟩ := random_duration_bounds r duration hd h0 h1
  have hnn : 0 ≤ r * duration := mul_nonneg h0 (le_of_lt hd)
  have ha0 : 0 ≤ fl (r * duration) := by
    have := hmono 0 (r * duration) le_rfl hnn
    rwa [hz] at this
  have ha1 : fl (r * duration) ≤ duration := by
    have := hmono (r * duration) duration hnn (by linarith)
    rwa [hfd] at this
  constructor
  · have := hmono duration (fl (r * duration) + duration) (le_of_lt hd) (by linarith)
    rwa [hfd] at this
  · have := hmono (fl (r * duration) + duration) (duration * 2) (by linarith) (by linarith)
    rwa [hf2] at this

/-- The render task stays active at a frame inside its window. -/
theorem renderTween_kept (fl : α → α) (ease : α → α) (duration now t : α) (s : State α)
    (hd : 0 < duration) (hf2 : fl (duration * 2) = duration * 2) (h1 : now ≤ t)
    (h2 : t < now + duration * 2) :
    ((renderTween fl duration now).update ease t s).1 = true := by
  have hpos : (0 : α) < duration * 2 := by linarith
  have hlt : (t - now) / (duration * 2) < 1 := by
    rw [div_lt_one hpos]; linarith
  rw [update_fst]
  simp only [renderTween, hf2]
  rw [if_neg (not_lt.mpr h1), if_neg (by
    rintro (h | h)
    · exact (ne_of_gt hpos) h
    · exact absurd h (not_lt.mpr (le_of_lt hlt)))]
  simpa using ne_of_lt hlt

/-- A task whose duration has elapsed leaves the active set at the next update. -/
theorem update_completed (ease : α → α) (t : α) (tw : Tween α) (s : State α)
    (hd : 0 ≤ tw.duration) (h : tw.startTime + tw.duration ≤ t) :
    (tw.update ease t s).1 = false := by
  rw [update_fst]
  have hst : ¬ t < tw.startTime := by
    rw [not_lt]; linarith
  rw [if_neg hst]
  by_cases h0 : tw.duration = 0
  · simp [h0]
  · have hpos : 0 < tw.duration := lt_of_le_of_ne hd (Ne.symm h0)
    have hge : 1 ≤ (t - tw.startTime) / tw.duration := by
      rw [le_div_iff₀ hpos]; linarith
    by_cases hgt : (t - tw.startTime) / tw.duration > 1
    · simp [hgt]
    · have heq : (t - tw.startTime) / tw.duration = 1 := le_antisymm (not_lt.mp hgt) hge
      simp [heq]

/-- Frames inside the window of the render task: the render task stays active, the entity
tasks can only leave, and each frame calls `render` once. -/
theorem runFrames_in_window (fl : α → α) (ease : α → α) (duration now : α)
    (hd : 0 < duration) (hf2 : fl (duration * 2) = duration * 2) :
    ∀ (frames : List α) (s : State α) (es : List (Tween α)),
      s.tweens = es ++ [renderTween fl duration now] →
      (∀ e ∈ es, e.onUpdate = false) →
      (∀ t ∈ frames, now ≤ t ∧ t < now + duration * 2) →
      ∃ es2, (runFrames ease frames s).tweens = es2 ++ [renderTween fl duration now]
        ∧ (∀ e ∈ es2, e ∈ es)
        ∧ (runFrames ease frames s).renderCalls = s.renderCalls + frames.length := by
  intro frames
  induction frames with
  | nil =>
    intro s es hs _ _
    exact ⟨es, hs, fun _ h => h, rfl⟩
  | cons t rest ih =>
    intro s es hs hes hframes
    obtain ⟨ht1, ht2⟩ := hframes t (List.mem_cons_self _ _)
    have hkeep := renderTween_kept fl ease duration now t s hd hf2 ht1 ht2
    have htw : (TWEEN_update ease t s).tweens
        = es.filter (fun tw => (tw.update ease t s).1) ++ [renderTween fl duration now] := by
      rw [TWEEN_update_tweens, hs, List.filter_append]
      simp [List.filter_cons, hkeep]
    have hsub : ∀ e ∈ es.filter (fun tw => (tw.update ease t s).1), e ∈ es :=
      fun e h => List.mem_of_mem_filter h
    have hcount : (TWEEN_update ease t s).renderCalls = s.renderCalls + 1 := by
      rw [TWEEN_update_renderCalls, hs, List.countP_append]
      have h0 : es.countP (fun tw => decide (¬ t < tw.startTime) && tw.onUpdate) = 0 := by
        rw [List.countP_eq_zero]
        intro e he
        simp [hes e he]
      rw [h0]
      simp [List.countP_cons, renderTween, not_lt.mpr ht1]
    obtain ⟨es2, h1, h2, h3⟩ := ih (TWEEN_update ease t s) _ htw
      (fun e he => hes e (hsub e he))
      (fun u hu => hframes u (List.mem_cons_of_mem _ hu))
    refine ⟨es2, ?_, fun e he => hsub e (h2 e he), ?_⟩
    · simpa [runFrames] using h1
    · have : (runFrames ease (t :: rest) s).renderCalls
          = (runFrames ease rest (TWEEN_update ease t s)).renderCalls := by
        simp [runFrames]
      rw [this, h3, hcount, List.length_cons]
      omega

end EngineLemmas

section EngineTheorems

variable {α : Type} [LinearOrderedField α]

/-- C6: `transform` discards every previously active task before it creates new ones:
whatever was active in the state `s` of the call, the active set afterwards is the task
set of this call (for each pair of an object and its target one position task and one
rotation task, then the render task). Every entity `i` with a target owns exactly one
position task and one rotation task, which starts from the current value of the entity
and ends at `targetsArray[i]`. Calls of `transform` move no object, so requesting the
same layout twice in succession leaves every task with the same object, start and end
values as a single request. -/
theorem transform_supersedes_active_tasks (fl : α → α) (random : Nat → α)
    (targetsArray : List (Object3D α)) (duration now : α) (s : State α) :
    (transform fl random targetsArray duration now s).tweens
        = startedTweens fl random duration now s.randomCalls 0 (s.objects.zip targetsArray)
            ++ [renderTween fl duration now]
    ∧ (transform fl random targetsArray duration now s).tweens
        = (transform fl random targetsArray duration now (removeAll s)).tweens
    ∧ (∀ i object target, s.objects[i]? = some object → targetsArray[i]? = some target →
        (transform fl random targetsArray duration now s).tweens.filter
            (fun tw => decide (tw.object = .position i))
          = [{ object := .position i, valuesStart := some object.position,
               valuesEnd := some target.position,
               duration := fl (fl (random (s.randomCalls + 2 * i) * duration) + duration),
               startTime := now, easing := .exponentialInOut, onUpdate := false }]
        ∧ (transform fl random targetsArray duration now s).tweens.filter
            (fun tw => decide (tw.object = .rotation i))
          = [{ object := .rotation i, valuesStart := some object.rotation,
               valuesEnd := some target.rotation,
               duration := fl (fl (random (s.randomCalls + 2 * i + 1) * duration) + duration),
               startTime := now, easing := .exponentialInOut, onUpdate := false }])
    ∧ (∀ calls : List (List (Object3D α) × α × α),
        (calls.foldl (fun st c => transform fl random c.1 c.2.1 c.2.2 st) s).objects = s.objects)
    ∧ (∀ (name : LayoutName) (now2 : α),
        (clickLayout fl random name now2 (clickLayout fl random name now s)).objects = s.objects
        ∧ (clickLayout fl random name now2 (clickLayout fl random name now s)).tweens.map
              Tween.endpoints
            = (clickLayout fl random name now s).tweens.map Tween.endpoints) := by
  refine ⟨?_, ?_, ?_, ?_, ?_⟩
  · rw [transform_eq]
  · rw [transform_eq, transform_eq]
    rfl
  · intro i object target ho ht
    exact transform_entity_tasks fl random targetsArray duration now s i object
      target ho ht
  · intro calls
    exact (foldl_transform_frame fl random calls s).1
  · intro name now2
    constructor
    · simp only [clickLayout, transform_eq]
    · simp only [clickLayout, transform_eq, List.map_append]
      congr 1
      exact startedTweens_endpoints fl fl random random 2000 2000 now2 now _ _ _ 0

/-- C7: for an entity index `i` without entry in `targetsArray` (`i >= len(targetsArray)`),
`transform` creates no position and no rotation task, the transform of the entity after
the call is what it was before, and no later iteration of the frame loop moves it. Tasks
are created exactly for the indices `i < min(len(objects), len(targetsArray))`. The call
always completes: `transform` is a total function and moves no object. An empty target
list creates no entity task, only the render task. -/
theorem transform_leaves_untargeted_entities (fl : α → α) (random : Nat → α) (ease : α → α)
    (targetsArray : List (Object3D α)) (duration now : α) (s : State α) :
    (∀ i, targetsArray.length ≤ i →
      (∀ tw ∈ (transform fl random targetsArray duration now s).tweens,
          tw.object ≠ .position i ∧ tw.object ≠ .rotation i)
      ∧ (transform fl random targetsArray duration now s).objects[i]? = s.objects[i]?
      ∧ ∀ frames : List α,
          (runFrames ease frames (transform fl random targetsArray duration now s)).objects[i]?
            = s.objects[i]?)
    ∧ (∀ i, (∃ tw ∈ (transform fl random targetsArray duration now s).tweens,
          tw.object = .position i) ↔ i < min s.objects.length targetsArray.length)
    ∧ (∀ i, (∃ tw ∈ (transform fl random targetsArray duration now s).tweens,
          tw.object = .rotation i) ↔ i < min s.objects.length targetsArray.length)
    ∧ (transform fl random targetsArray duration now s).objects = s.objects
    ∧ (transform fl random [] duration now s).tweens = [renderTween fl duration now] := by
  have hobj : (transform fl random targetsArray duration now s).objects = s.objects := by
    rw [transform_eq]
  have hmem : ∀ tw ∈ (transform fl random targetsArray duration now s).tweens,
      tw = renderTween fl duration now
      ∨ ∃ j, j < min s.objects.length targetsArray.length
          ∧ (tw.object = .position j ∨ tw.object = .rotation j) := by
    intro tw htw
    rw [transform_eq] at htw
    simp only [List.mem_append, List.mem_singleton] at htw
    rcases htw with htw | htw
    · obtain ⟨_, _, _, j, _, hj, hobj⟩ := startedTweens_mem fl random duration now _ _ _ tw htw
      rw [List.length_zip] at hj
      exact Or.inr ⟨j, by omega, hobj⟩
    · exact Or.inl htw
  have hfilter : ∀ i, i < min s.objects.length targetsArray.length →
      (∃ tw ∈ (transform fl random targetsArray duration now s).tweens, tw.object = .position i)
      ∧ (∃ tw ∈ (transform fl random targetsArray duration now s).tweens,
          tw.object = .rotation i) := by
    intro i hi
    have ho : s.objects[i]? = some s.objects[i] := List.getElem?_eq_getElem (by omega)
    have ht : targetsArray[i]? = some targetsArray[i] := List.getElem?_eq_getElem (by omega)
    obtain ⟨h1, h2⟩ := (transform_entity_tasks fl random targetsArray duration now
      s i _ _ ho ht)
    constructor
    · refine ⟨_, List.mem_of_mem_filter (p := fun tw => decide (tw.object = .position i))
        (by rw [h1]; exact List.mem_singleton_self _), rfl⟩
    · refine ⟨_, List.mem_of_mem_filter (p := fun tw => decide (tw.object = .rotation i))
        (by rw [h2]; exact List.mem_singleton_self _), rfl⟩
  have hno : ∀ i, targetsArray.length ≤ i →
      ∀ tw ∈ (transform fl random targetsArray duration now s).tweens,
        tw.object ≠ .position i ∧ tw.object ≠ .rotation i := by
    intro i hi tw htw
    rcases hmem tw htw with h | ⟨j, hj, h | h⟩
    · subst h
      constructor <;> simp [renderTween]
    · rw [h]
      exact ⟨by simp; omega, by simp⟩
    · rw [h]
      exact ⟨by simp, by simp; omega⟩
  refine ⟨?_, ?_, ?_, hobj, ?_⟩
  · intro i hi
    refine ⟨hno i hi, by rw [hobj], ?_⟩
    intro frames
    rw [runFrames_getElem? ease i frames _ (hno i hi), hobj]
  · intro i
    constructor
    · rintro ⟨tw, htw, hp⟩
      rcases hmem tw htw with h | ⟨j, hj, h | h⟩
      · subst h
        simp [renderTween] at hp
      · rw [h] at hp
        have : j = i := by simpa using hp
        omega
      · rw [h] at hp
        simp at hp
    · intro hi
      exact (hfilter i hi).1
  · intro i
    constructor
    · rintro ⟨tw, htw, hp⟩
      rcases hmem tw htw with h | ⟨j, hj, h | h⟩
      · subst h
        simp [renderTween] at hp
      · rw [h] at hp
        simp at hp
      · rw [h] at hp
        have : j = i := by simpa using hp
        omega
    · intro hi
      exact (hfilter i hi).2
  · rw [transform_eq]
    simp [startedTweens]

/-- C8 (amended): let the random source have values in `[0, 1)`, `duration > 0`, and let
the rounding `fl` of arithmetic results to doubles be monotone on the non-negative
numbers and leave `0`, `duration` and `duration * 2` as they are. Then the position task
and the rotation task `transform(targets, duration)` creates for entity `i` have the
durations `fl (fl (r * duration) + duration)` for the values `r` the random source
returns to them; every such task starts at the time of the call and its duration lies in
the closed interval `[duration, 2*duration]`, so it finishes at a time in
`[duration, 2*duration]` after the call. In exact arithmetic (`fl` the identity) the
duration stays below `2*duration`. -/
theorem transform_task_durations (fl : α → α) (random : Nat → α)
    (targetsArray : List (Object3D α)) (duration now : α) (s : State α) (hd : 0 < duration)
    (hr : ∀ n, 0 ≤ random n ∧ random n < 1)
    (hmono : ∀ x y, 0 ≤ x → x ≤ y → fl x ≤ fl y) (hz : fl 0 = 0)
    (hfd : fl duration = duration) (hf2 : fl (duration * 2) = duration * 2) :
    (∀ i object target, s.objects[i]? = some object → targetsArray[i]? = some target →
        (transform fl random targetsArray duration now s).tweens.filter
            (fun tw => decide (tw.object = .position i))
          = [{ object := .position i, valuesStart := some object.position,
               valuesEnd := some target.position,
               duration := fl (fl (random (s.randomCalls + 2 * i) * duration) + duration),
               startTime := now, easing := .exponentialInOut, onUpdate := false }]
        ∧ (transform fl random targetsArray duration now s).tweens.filter
            (fun tw => decide (tw.object = .rotation i))
          = [{ object := .rotation i, valuesStart := some object.rotation,
               valuesEnd := some target.rotation,
               duration :=
                 fl (fl (random (s.randomCalls + 2 * i + 1) * duration) + duration),
               startTime := now, easing := .exponentialInOut, onUpdate := false }])
    ∧ (∀ tw ∈ (transform fl random targetsArray duration now s).tweens,
        tw.object ≠ .blank →
        (∃ n, 0 ≤ random n ∧ random n < 1
          ∧ tw.duration = fl (fl (random n * duration) + duration))
        ∧ duration ≤ tw.duration ∧ tw.duration ≤ 2 * duration
        ∧ tw.startTime = now
        ∧ now + duration ≤ tw.startTime + tw.duration
        ∧ tw.startTime + tw.duration ≤ now + 2 * duration)
    ∧ ((∀ x, fl x = x) →
        ∀ tw ∈ (transform fl random targetsArray duration now s).tweens,
          tw.object ≠ .blank → tw.duration < 2 * duration) := by
  refine ⟨?_, ?_, ?_⟩
  · intro i object target ho ht
    exact transform_entity_tasks fl random targetsArray duration now s i object target ho ht
  · intro tw htw hobj
    rcases transform_mem fl random targetsArray duration now s tw htw
      with h | ⟨_, h2, ⟨n, h3⟩, _⟩
    · subst h
      exact absurd rfl hobj
    · obtain ⟨hb1, hb2⟩ := rounded_duration_bounds fl (random n) duration hd (hr n).1
        (hr n).2 hmono hz hfd hf2
      rw [h3, h2]
      exact ⟨⟨n, (hr n).1, (hr n).2, rfl⟩, hb1, by linarith, rfl, by linarith, by linarith⟩
  · intro hid tw htw hobj
    rcases transform_mem fl random targetsArray duration now s tw htw
      with h | ⟨_, _, ⟨n, h3⟩, _⟩
    · subst h
      exact absurd rfl hobj
    · rw [h3, hid, hid]
      exact (random_duration_bounds (random n) duration hd (hr n).1 (hr n).2).2

/-- C9 (amended): let the random source have values in `[0, 1)`, `duration > 0`, and let
the rounding `fl` of arithmetic results to doubles be monotone on the non-negative
numbers and leave `0`, `duration` and `duration * 2` as they are. Then
`transform(targets, duration)` starts exactly one task with the render callback, at the
time of the call and of duration `2*duration`; every position and rotation task of the
call starts with the call and has a duration of at most `2*duration` (below `2*duration`
in exact arithmetic, where `fl` is the identity); every frame update inside the window of
`2*duration` from the call invokes `render` once and keeps the render task active; and at
the first frame update at or after the close of the window `render` is invoked once more,
after which no task is active and later frame updates invoke `render` no more. -/
theorem transform_render_window_covers_tasks (fl : α → α) (random : Nat → α) (ease : α → α)
    (targetsArray : List (Object3D α)) (duration now : α) (s : State α)
    (hd : 0 < duration) (hr : ∀ n, 0 ≤ random n ∧ random n < 1)
    (hmono : ∀ x y, 0 ≤ x → x ≤ y → fl x ≤ fl y) (hz : fl 0 = 0)
    (hfd : fl duration = duration) (hf2 : fl (duration * 2) = duration * 2) :
    (transform fl random targetsArray duration now s).tweens.filter (fun tw => tw.onUpdate)
        = [{ object := .blank, valuesStart := none, valuesEnd := none,
             duration := duration * 2, startTime := now, easing := .linearNone,
             onUpdate := true }]
    ∧ (∀ tw ∈ (transform fl random targetsArray duration now s).tweens, tw.object ≠ .blank →
        tw.startTime = now ∧ tw.duration ≤ duration * 2)
    ∧ ((∀ x, fl x = x) →
        ∀ tw ∈ (transform fl random targetsArray duration now s).tweens,
          tw.object ≠ .blank → tw.duration < duration * 2)
    ∧ (∀ frames : List α, (∀ t ∈ frames, now ≤ t ∧ t < now + duration * 2) →
        (runFrames ease frames (transform fl random targetsArray duration now s)).renderCalls
            = s.renderCalls + frames.length
        ∧ renderTween fl duration now
            ∈ (runFrames ease frames (transform fl random targetsArray duration now s)).tweens
        ∧ ∀ t, now + duration * 2 ≤ t →
            (TWEEN_update ease t
                (runFrames ease frames
                  (transform fl random targetsArray duration now s))).renderCalls
              = s.renderCalls + frames.length + 1
            ∧ (TWEEN_update ease t
                (runFrames ease frames
                  (transform fl random targetsArray duration now s))).tweens = []
            ∧ ∀ later : List α,
                (runFrames ease later
                  (TWEEN_update ease t
                    (runFrames ease frames
                      (transform fl random targetsArray duration now s)))).renderCalls
                  = s.renderCalls + frames.length + 1) := by
  have hes : ∀ e ∈ startedTweens fl random duration now s.randomCalls 0
      (s.objects.zip targetsArray),
      e.onUpdate = false ∧ e.startTime = now
        ∧ 0 ≤ e.duration ∧ e.duration ≤ duration * 2 := by
    intro e he
    obtain ⟨h1, h2, ⟨n, h3⟩, _⟩ := startedTweens_mem fl random duration now _ _ _ e he
    obtain ⟨hb1, hb2⟩ := rounded_duration_bounds fl (random n) duration hd (hr n).1
      (hr n).2 hmono hz hfd hf2
    rw [h3]
    exact ⟨h1, h2, by linarith, hb2⟩
  have htweens : (transform fl random targetsArray duration now s).tweens
      = startedTweens fl random duration now s.randomCalls 0 (s.objects.zip targetsArray)
          ++ [renderTween fl duration now] := by
    rw [transform_eq]
  have hcalls : (transform fl random targetsArray duration now s).renderCalls = s.renderCalls := by
    rw [transform_eq]
  refine ⟨?_, ?_, ?_, ?_⟩
  · rw [htweens, List.filter_append]
    have h0 : (startedTweens fl random duration now s.randomCalls 0
        (s.objects.zip targetsArray)).filter (fun tw => tw.onUpdate) = [] := by
      rw [List.filter_eq_nil_iff]
      intro e he
      simp [(hes e he).1]
    rw [h0]
    simp [renderTween, List.filter_cons, hf2]
  · intro tw htw hobj
    rw [htweens] at htw
    simp only [List.mem_append, List.mem_singleton] at htw
    rcases htw with htw | htw
    · exact ⟨(hes tw htw).2.1, (hes tw htw).2.2.2⟩
    · subst htw
      exact absurd rfl hobj
  · intro hid tw htw hobj
    rcases transform_mem fl random targetsArray duration now s tw htw
      with h | ⟨_, _, ⟨n, h3⟩, _⟩
    · subst h
      exact absurd rfl hobj
    · rw [h3, hid, hid]
      have := (random_duration_bounds (random n) duration hd (hr n).1 (hr n).2).2
      linarith
  · intro frames hframes
    obtain ⟨es2, h1, h2, h3⟩ := runFrames_in_window fl ease duration now hd hf2 frames
      (transform fl random targetsArray duration now s) _ htweens
      (fun e he => (hes e he).1) hframes
    rw [hcalls] at h3
    refine ⟨h3, ?_, ?_⟩
    · rw [h1]
      simp
    · intro t ht
      have hempty : (TWEEN_update ease t
          (runFrames ease frames (transform fl random targetsArray duration now s))).tweens
            = [] := by
        rw [TWEEN_update_tweens, List.filter_eq_nil_iff]
        intro tw htw
        rw [h1] at htw
        simp only [List.mem_append, List.mem_singleton] at htw
        have hdone : (tw.update ease t
            (runFrames ease frames (transform fl random targetsArray duration now s))).1
              = false := by
          rcases htw with htw | htw
          · obtain ⟨_, hst, hd0, hdlt⟩ := hes tw (h2 tw htw)
            exact update_completed ease t tw _ hd0 (by rw [hst]; linarith)
          · subst htw
            exact update_completed ease t _ _ (by simp only [renderTween, hf2]; linarith)
              (by simp only [renderTween, hf2]; linarith)
        simp [hdone]
      have hrender : (TWEEN_update ease t
          (runFrames ease frames (transform fl random targetsArray duration now s))).renderCalls
            = s.renderCalls + frames.length + 1 := by
        rw [TWEEN_update_renderCalls, h1, h3, List.countP_append]
        have h0 : es2.countP (fun tw => decide (¬ t < tw.startTime) && tw.onUpdate) = 0 := by
          rw [List.countP_eq_zero]
          intro e he
          simp [(hes e (h2 e he)).1]
        have hnow : ¬ t < now := by
          rw [not_lt]; linarith
        rw [h0]
        simp [List.countP_cons, renderTween, hnow]
      refine ⟨hrender, hempty, ?_⟩
      intro later
      have hstay : ∀ (l : List α) (st : State α), st.tweens = [] →
          (runFrames ease l st).renderCalls = st.renderCalls := by
        intro l
        induction l with
        | nil => intro st _; rfl
        | cons u rest ih =>
          intro st hst
          have e1 : (TWEEN_update ease u st).tweens = [] := by
            rw [TWEEN_update_tweens, hst]; rfl
          have e2 : (TWEEN_update ease u st).renderCalls = st.renderCalls := by
            rw [TWEEN_update_renderCalls, hst]; rfl
          have := ih (TWEEN_update ease u st) e1
          simp only [runFrames, List.foldl_cons] at this ⊢
          rw [this, e2]
      rw [hstay later _ hempty, hrender]

/-- A fact about the example data: the values of `exampleRandom` lie in `[0, 1)`. -/
theorem exampleRandom_range : ∀ n, 0 ≤ exampleRandom n ∧ exampleRandom n < 1 := by
  intro n
  simp only [exampleRandom]
  constructor <;> norm_num

/-- Witness of C6: in the example state, whose earlier task on entity 2 is still active,
entity 1 has an object and a target, and after `transform` it owns exactly one position
task and one rotation task, from its current value to its target. -/
theorem transform_supersedes_active_tasks_witness :
    exampleState.objects[1]? = some { position := ⟨-50, 60, 70⟩, rotation := ⟨0, 0, 0⟩ }
    ∧ exampleTargets[1]? = some { position := ⟨-1440, 100, 0⟩, rotation := ⟨0, 0, 0⟩ }
    ∧ (transform roundDouble exampleRandom exampleTargets 2000 0 exampleState).tweens.filter
          (fun tw => decide (tw.object = .position 1))
        = [{ object := .position 1, valuesStart := some ⟨-50, 60, 70⟩,
             valuesEnd := some ⟨-1440, 100, 0⟩,
             duration :=
               roundDouble (roundDouble (exampleRandom (exampleState.randomCalls + 2 * 1) * 2000)
                 + 2000),
             startTime := 0, easing := .exponentialInOut, onUpdate := false }]
    ∧ (transform roundDouble exampleRandom exampleTargets 2000 0 exampleState).tweens.filter
          (fun tw => decide (tw.object = .rotation 1))
        = [{ object := .rotation 1, valuesStart := some ⟨0, 0, 0⟩,
             valuesEnd := some ⟨0, 0, 0⟩,
             duration :=
               roundDouble
                 (roundDouble (exampleRandom (exampleState.randomCalls + 2 * 1 + 1) * 2000)
                   + 2000),
             startTime := 0, easing := .exponentialInOut, onUpdate := false }] :=
  ⟨rfl, rfl,
    (transform_supersedes_active_tasks roundDouble exampleRandom exampleTargets 2000 0 exampleState).2.2.1
      1 { position := ⟨-50, 60, 70⟩, rotation := ⟨0, 0, 0⟩ }
      { position := ⟨-1440, 100, 0⟩, rotation := ⟨0, 0, 0⟩ } rfl rfl⟩

/-- Witness of C7: an empty target sequence creates no entity task, only the render task,
and entity 0 keeps its transform. -/
theorem transform_leaves_untargeted_entities_witness :
    ([] : List (Object3D ℚ)).length ≤ 0
    ∧ (∀ tw ∈ (transform roundDouble exampleRandom [] 2000 0 exampleState).tweens,
        tw.object ≠ .position 0 ∧ tw.object ≠ .rotation 0)
    ∧ (transform roundDouble exampleRandom [] 2000 0 exampleState).objects[0]? = exampleState.objects[0]?
    ∧ (transform roundDouble exampleRandom [] 2000 0 exampleState).tweens = [renderTween roundDouble 2000 0] :=
  ⟨Nat.le_refl 0,
    ((transform_leaves_untargeted_entities roundDouble exampleRandom exampleEasing [] 2000 0
      exampleState).1 0 (Nat.le_refl 0)).1,
    ((transform_leaves_untargeted_entities roundDouble exampleRandom exampleEasing [] 2000 0
      exampleState).1 0 (Nat.le_refl 0)).2.1,
    (transform_leaves_untargeted_entities roundDouble exampleRandom exampleEasing [] 2000 0
      exampleState).2.2.2.2⟩

/-- Counterexample to C8 as stated: in doubles, with `Math.random()` returning
`1 - 2^-53` (a value in `[0, 1)`) and `duration = 2000`, the position task of entity 0 has
the duration `4000 = 2*duration`, which is outside `[duration, 2*duration)`. -/
theorem transform_task_durations_counterexample :
    (0 : ℚ) < 2000
    ∧ (∀ n, 0 ≤ maxRandom n ∧ maxRandom n < 1)
    ∧ (∃ tw ∈ (transform roundDouble maxRandom exampleTargets 2000 0 exampleState).tweens,
        tw.object = .position 0 ∧ tw.duration = 2 * 2000)
    ∧ ¬ (∀ tw ∈ (transform roundDouble maxRandom exampleTargets 2000 0 exampleState).tweens,
          tw.object ≠ .blank → 2000 ≤ tw.duration ∧ tw.duration < 2 * 2000) := by
  obtain ⟨hp, _⟩ := transform_entity_tasks roundDouble maxRandom exampleTargets 2000 0
    exampleState 0 { position := ⟨100, -200, 300⟩, rotation := ⟨0, 0, 0⟩ }
    { position := ⟨-1600, 100, 0⟩, rotation := ⟨0, 0, 0⟩ } rfl rfl
  have hne : (transform roundDouble maxRandom exampleTargets 2000 0 exampleState).tweens.filter
      (fun tw => decide (tw.object = .position 0)) ≠ [] := by
    rw [hp]
    exact List.cons_ne_nil _ _
  obtain ⟨tw, hfl⟩ := List.exists_mem_of_ne_nil _ hne
  have hmem := List.mem_of_mem_filter hfl
  rw [hp, List.mem_singleton] at hfl
  have hobj : tw.object = .position 0 := by rw [hfl]
  have hdur : tw.duration = 2 * 2000 := by
    rw [hfl]
    simp only []
    rw [maxRandom_duration]
    norm_num
  refine ⟨by norm_num, maxRandom_range, ⟨tw, hmem, hobj, hdur⟩, ?_⟩
  intro hall
  have h := (hall tw hmem (by rw [hobj]; simp)).2
  rw [hdur] at h
  exact lt_irrefl _ h

/-- Witness of C8: with the rounding to double, `duration = 2000` and the random source
at `1 - 2^-53`, every entity task has a duration in the closed interval `[2000, 4000]`. -/
theorem transform_task_durations_witness :
    (0 : ℚ) < 2000
    ∧ (∀ n, 0 ≤ maxRandom n ∧ maxRandom n < 1)
    ∧ (∀ x y : ℚ, 0 ≤ x → x ≤ y → roundDouble x ≤ roundDouble y)
    ∧ roundDouble 0 = 0 ∧ roundDouble 2000 = 2000 ∧ roundDouble (2000 * 2) = 2000 * 2
    ∧ ∀ tw ∈ (transform roundDouble maxRandom exampleTargets 2000 0 exampleState).tweens,
        tw.object ≠ .blank →
        (∃ n, 0 ≤ maxRandom n ∧ maxRandom n < 1
          ∧ tw.duration = roundDouble (roundDouble (maxRandom n * 2000) + 2000))
        ∧ 2000 ≤ tw.duration ∧ tw.duration ≤ 2 * 2000
        ∧ tw.startTime = 0
        ∧ 0 + 2000 ≤ tw.startTime + tw.duration
        ∧ tw.startTime + tw.duration ≤ 0 + 2 * 2000 :=
  ⟨by norm_num, maxRandom_range, roundDouble_mono, roundDouble_zero, roundDouble_2000,
    roundDouble_4000,
    (transform_task_durations roundDouble maxRandom exampleTargets 2000 0 exampleState
      (by norm_num) maxRandom_range roundDouble_mono roundDouble_zero roundDouble_2000
      roundDouble_4000).2.1⟩

/-- Counterexample to C9 as stated: in doubles, with `Math.random()` returning
`1 - 2^-53` and `duration = 2000`, the rotation task of entity 0 has the duration of the
render task, `2*duration = 4000`: a task of the call does reach `2*duration`. -/
theorem transform_render_window_covers_tasks_counterexample :
    (0 : ℚ) < 2000
    ∧ (∀ n, 0 ≤ maxRandom n ∧ maxRandom n < 1)
    ∧ (∃ tw ∈ (transform roundDouble maxRandom exampleTargets 2000 0 exampleState).tweens,
        tw.object = .rotation 0 ∧ tw.duration = 2000 * 2
          ∧ tw.duration = (renderTween roundDouble 2000 0).duration)
    ∧ ¬ (∀ tw ∈ (transform roundDouble maxRandom exampleTargets 2000 0 exampleState).tweens,
          tw.object ≠ .blank → tw.startTime = 0 ∧ tw.duration < 2000 * 2) := by
  obtain ⟨_, hq⟩ := transform_entity_tasks roundDouble maxRandom exampleTargets 2000 0
    exampleState 0 { position := ⟨100, -200, 300⟩, rotation := ⟨0, 0, 0⟩ }
    { position := ⟨-1600, 100, 0⟩, rotation := ⟨0, 0, 0⟩ } rfl rfl
  have hne : (transform roundDouble maxRandom exampleTargets 2000 0 exampleState).tweens.filter
      (fun tw => decide (tw.object = .rotation 0)) ≠ [] := by
    rw [hq]
    exact List.cons_ne_nil _ _
  obtain ⟨tw, hfl⟩ := List.exists_mem_of_ne_nil _ hne
  have hmem := List.mem_of_mem_filter hfl
  rw [hq, List.mem_singleton] at hfl
  have hobj : tw.object = .rotation 0 := by rw [hfl]
  have hdur : tw.duration = 2000 * 2 := by
    rw [hfl]
    simp only []
    rw [maxRandom_duration]
  refine ⟨by norm_num, maxRandom_range, ⟨tw, hmem, hobj, hdur, ?_⟩, ?_⟩
  · rw [hdur]
    simp only [renderTween, roundDouble_4000]
  · intro hall
    have h := (hall tw hmem (by rw [hobj]; simp)).2
    rw [hdur] at h
    exact lt_irrefl _ h

/-- Witness of C9: with the rounding to double, `duration = 2000` started at time 0 and
the random source at `1 - 2^-53`, the frames at 0, 1000 and 3999 each invoke `render`,
and the frame at 4000 invokes it a last time and leaves no task active. -/
theorem transform_render_window_covers_tasks_witness :
    (0 : ℚ) < 2000
    ∧ (∀ n, 0 ≤ maxRandom n ∧ maxRandom n < 1)
    ∧ (∀ x y : ℚ, 0 ≤ x → x ≤ y → roundDouble x ≤ roundDouble y)
    ∧ roundDouble 0 = 0 ∧ roundDouble 2000 = 2000 ∧ roundDouble (2000 * 2) = 2000 * 2
    ∧ (∀ t ∈ ([0, 1000, 3999] : List ℚ), 0 ≤ t ∧ t < 0 + 2000 * 2)
    ∧ (∀ tw ∈ (transform roundDouble maxRandom exampleTargets 2000 0 exampleState).tweens,
        tw.object ≠ .blank → tw.startTime = 0 ∧ tw.duration ≤ 2000 * 2)
    ∧ (runFrames exampleEasing [0, 1000, 3999]
          (transform roundDouble maxRandom exampleTargets 2000 0 exampleState)).renderCalls
        = exampleState.renderCalls + ([0, 1000, 3999] : List ℚ).length
    ∧ (TWEEN_update exampleEasing 4000
          (runFrames exampleEasing [0, 1000, 3999]
            (transform roundDouble maxRandom exampleTargets 2000 0
              exampleState))).renderCalls
        = exampleState.renderCalls + ([0, 1000, 3999] : List ℚ).length + 1
    ∧ (TWEEN_update exampleEasing 4000
          (runFrames exampleEasing [0, 1000, 3999]
            (transform roundDouble maxRandom exampleTargets 2000 0 exampleState))).tweens
        = [] := by
  have hframes : ∀ t ∈ ([0, 1000, 3999] : List ℚ), 0 ≤ t ∧ t < 0 + 2000 * 2 := by
    intro t ht
    simp only [List.mem_cons, List.mem_singleton, List.not_mem_nil, or_false] at ht
    rcases ht with rfl | rfl | rfl <;> norm_num
  have h := transform_render_window_covers_tasks roundDouble maxRandom exampleEasing
    exampleTargets 2000 0 exampleState (by norm_num) maxRandom_range roundDouble_mono
    roundDouble_zero roundDouble_2000 roundDouble_4000
  have hf := h.2.2.2 [0, 1000, 3999] hframes
  exact ⟨by norm_num, maxRandom_range, roundDouble_mono, roundDouble_zero, roundDouble_2000,
    roundDouble_4000, hframes, h.2.1, hf.1, (hf.2.2 4000 (by norm_num)).1,
    (hf.2.2 4000 (by norm_num)).2.1⟩

end EngineTheorems

section SceneTheorems

variable {α : Type} [LinearOrderedField α]

/-- The loop of `initThreeScene` over the people pushes one object per person and leaves
the target lists alone. -/
theorem initThreeScene_forEach {ρ : Type} (fl : α → α) (random : Nat → α) :
    ∀ (people : List ρ) (s : State α),
      (people.foldl
          (fun (s : State α) (_person : ρ) =>
            { s with
              objects := s.objects ++
                [{ position :=
                    { x := fl (fl (random s.randomCalls * 4000) - 2000)
                      y := fl (fl (random (s.randomCalls + 1) * 4000) - 2000)
                      z := fl (fl (random (s.randomCalls + 2) * 4000) - 2000) }
                   rotation := (Object3D.new : Object3D α).rotation }]
              randomCalls := s.randomCalls + 3 })
          s).objects.length = s.objects.length + people.length
      ∧ (people.foldl
          (fun (s : State α) (_person : ρ) =>
            { s with
              objects := s.objects ++
                [{ position :=
                    { x := fl (fl (random s.randomCalls * 4000) - 2000)
                      y := fl (fl (random (s.randomCalls + 1) * 4000) - 2000)
                      z := fl (fl (random (s.randomCalls + 2) * 4000) - 2000) }
                   rotation := (Object3D.new : Object3D α).rotation }]
              randomCalls := s.randomCalls + 3 })
          s).targets = s.targets := by
  intro people
  induction people with
  | nil => intro s; exact ⟨rfl, rfl⟩
  | cons p rest ih =>
    intro s
    simp only [List.foldl_cons]
    obtain ⟨h1, h2⟩ := ih
      { s with
        objects := s.objects ++
          [{ position :=
              { x := fl (fl (random s.randomCalls * 4000) - 2000)
                y := fl (fl (random (s.randomCalls + 1) * 4000) - 2000)
                z := fl (fl (random (s.randomCalls + 2) * 4000) - 2000) }
             rotation := (Object3D.new : Object3D α).rotation }]
        randomCalls := s.randomCalls + 3 }
    rw [h1, h2]
    simp only [List.length_append, List.length_cons, List.length_nil]
    constructor
    · omega
    · trivial

variable [FloorRing α]

/-- The effect of `initThreeScene(people)` on the lengths of `objects` and of the four
target lists: each grows by `people.length`. -/
theorem initThreeScene_lengths {ρ : Type} (M : MathEnv α) (fl : α → α) (random : Nat → α)
    (people : List ρ) (now : α) (s : State α) :
    (initThreeScene M fl random people now s).objects.length
        = s.objects.length + people.length
    ∧ (initThreeScene M fl random people now s).targets.table.length
        = s.targets.table.length + people.length
    ∧ (initThreeScene M fl random people now s).targets.sphere.length
        = s.targets.sphere.length + people.length
    ∧ (initThreeScene M fl random people now s).targets.helix.length
        = s.targets.helix.length + people.length
    ∧ (initThreeScene M fl random people now s).targets.grid.length
        = s.targets.grid.length + people.length := by
  obtain ⟨h1, h2⟩ := initThreeScene_forEach (ρ := ρ) fl random people s
  simp only [initThreeScene, transform_eq, generateTableLayout_eq, generateSphereLayout_eq,
    generateHelixLayout_eq, generateGridLayout_eq, List.length_append, List.length_map,
    List.length_range]
  refine ⟨h1, ?_, ?_, ?_, ?_⟩ <;> rw [h2]

/-- C10: starting from the initial state of the module (no objects, four empty target
lists), after any sequence of completed scene initialisations, calls of `transform`,
clicks on layout buttons and frame updates, each of `targets.table`, `targets.sphere`,
`targets.helix` and `targets.grid` has as many entries as `objects`; a first
`initThreeScene(people)` makes this number `people.length`; and `transform` leaves the
four target lists exactly as they were. -/
theorem target_lists_length_invariant {ρ : Type} (M : MathEnv α) (fl : α → α) (random : Nat → α)
    (ease : α → α) (ops : List (Op α ρ)) :
    ((run M fl random ease ops State.initial).targets.table.length
        = (run M fl random ease ops State.initial).objects.length
      ∧ (run M fl random ease ops State.initial).targets.sphere.length
        = (run M fl random ease ops State.initial).objects.length
      ∧ (run M fl random ease ops State.initial).targets.helix.length
        = (run M fl random ease ops State.initial).objects.length
      ∧ (run M fl random ease ops State.initial).targets.grid.length
        = (run M fl random ease ops State.initial).objects.length)
    ∧ (∀ (people : List ρ) (now : α),
        (initThreeScene M fl random people now State.initial).objects.length = people.length
        ∧ (initThreeScene M fl random people now State.initial).targets.table.length
            = people.length
        ∧ (initThreeScene M fl random people now State.initial).targets.sphere.length
            = people.length
        ∧ (initThreeScene M fl random people now State.initial).targets.helix.length
            = people.length
        ∧ (initThreeScene M fl random people now State.initial).targets.grid.length
            = people.length)
    ∧ (∀ (targetsArray : List (Object3D α)) (duration now : α) (s : State α),
        (transform fl random targetsArray duration now s).targets = s.targets
        ∧ (transform fl random targetsArray duration now s).objects = s.objects) := by
  have hstep : ∀ (op : Op α ρ) (s : State α),
      (s.targets.table.length = s.objects.length
        ∧ s.targets.sphere.length = s.objects.length
        ∧ s.targets.helix.length = s.objects.length
        ∧ s.targets.grid.length = s.objects.length) →
      ((Op.apply M fl random ease s op).targets.table.length
          = (Op.apply M fl random ease s op).objects.length
        ∧ (Op.apply M fl random ease s op).targets.sphere.length
          = (Op.apply M fl random ease s op).objects.length
        ∧ (Op.apply M fl random ease s op).targets.helix.length
          = (Op.apply M fl random ease s op).objects.length
        ∧ (Op.apply M fl random ease s op).targets.grid.length
          = (Op.apply M fl random ease s op).objects.length) := by
    intro op s ⟨h1, h2, h3, h4⟩
    cases op with
    | initThreeScene people now =>
      obtain ⟨e0, e1, e2, e3, e4⟩ := initThreeScene_lengths M fl random people now s
      simp only [Op.apply]
      rw [e0, e1, e2, e3, e4, h1, h2, h3, h4]
      exact ⟨rfl, rfl, rfl, rfl⟩
    | transform targetsArray duration now =>
      simp only [Op.apply, transform_eq]
      exact ⟨h1, h2, h3, h4⟩
    | click name now =>
      simp only [Op.apply, clickLayout, transform_eq]
      exact ⟨h1, h2, h3, h4⟩
    | frame time =>
      simp only [Op.apply, TWEEN_update_targets, TWEEN_update_objects_length]
      exact ⟨h1, h2, h3, h4⟩
  have hrun : ∀ (l : List (Op α ρ)) (s : State α),
      (s.targets.table.length = s.objects.length
        ∧ s.targets.sphere.length = s.objects.length
        ∧ s.targets.helix.length = s.objects.length
        ∧ s.targets.grid.length = s.objects.length) →
      ((run M fl random ease l s).targets.table.length = (run M fl random ease l s).objects.length
        ∧ (run M fl random ease l s).targets.sphere.length
          = (run M fl random ease l s).objects.length
        ∧ (run M fl random ease l s).targets.helix.length
          = (run M fl random ease l s).objects.length
        ∧ (run M fl random ease l s).targets.grid.length
          = (run M fl random ease l s).objects.length) := by
    intro l
    induction l with
    | nil => intro s h; exact h
    | cons op rest ih =>
      intro s h
      have := ih (Op.apply M fl random ease s op) (hstep op s h)
      simpa [run] using this
  refine ⟨hrun ops State.initial ⟨rfl, rfl, rfl, rfl⟩, ?_, ?_⟩
  · intro people now
    obtain ⟨e0, e1, e2, e3, e4⟩ := initThreeScene_lengths M fl random people now State.initial
    rw [e0, e1, e2, e3, e4]
    simp [State.initial]
  · intro targetsArray duration now s
    rw [transform_eq]
    exact ⟨rfl, rfl⟩

end SceneTheorems

end Kasatria
